import Mathlib

/-!
# go-ssh-tunnel: a verification development of `main.go`

The program is a local-to-remote TCP forwarder over one SSH connection.  Its
single source file has four functions: `checkErr`, `parseFlags`, `forward` and
`main`.  They are embedded here as pure functions that return the sequence of
externally visible effects (library calls, log lines, channel operations,
closes, process exits) they perform.

* The flag values are an input: `Config` holds the six package-level variables
  as `parseFlags` leaves them.
* The results of library calls (`ioutil.ReadFile`, `ssh.ParsePrivateKey`,
  `net.ResolveTCPAddr`, `ssh.Dial`, `DialTCP`, `net.ListenTCP`,
  `listener.Accept`, `io.Copy`) are inputs too: every theorem quantifies over
  all of them.
* After startup the process is a step function on an explicit state, driven by
  a schedule that says what the environment does and which goroutine moves.
  A step of the accept loop is one evaluation of its `select`, one return of
  `Accept` or its send on `sig`; a step of `main` is one statement of its
  tail (line 131, each deferred call, the exit).
* The bytes moved by the copies of `forward` are a second step function, one
  read-then-write round of one `io.Copy` per step.
-/

namespace SshTunnel

/-! ## Data model -/

/-- A byte travelling through a connection; only its identity matters. -/
abbrev Byte := Nat

/-- The six package-level variables of `main.go` (lines 16-23) after `parseFlags`. -/
structure Config where
  localAddrStr : String
  sshAddrStr : String
  remoteAddrStr : String
  user : String
  password : String
  keyfile : String
  deriving DecidableEq, Repr

/-- The values of `ssh.AuthMethod` that `main` can hold in `auth`: the zero value of the
interface (`var auth ssh.AuthMethod`, never assigned), `ssh.PublicKeys(sign)` and
`ssh.Password(password)`. -/
inductive AuthMethod where
  | unset
  | publicKeys (signer : String)
  | password (secret : String)
  deriving DecidableEq, Repr

/-- The `ssh.ClientConfig` literal of lines 80-85: the user and the `Auth` slice. -/
structure ClientConfig where
  user : String
  auth : List AuthMethod
  deriving DecidableEq, Repr

/-- A `net.Conn`: an identity and the two addresses the log lines of `forward` print. -/
structure Conn where
  id : Nat
  localAddr : String
  remoteAddr : String
  deriving DecidableEq, Repr

/-- The resources the program holds and could close. -/
inductive Res where
  | listener (h : Nat)
  | sshConn (h : Nat)
  | conn (c : Conn)
  deriving DecidableEq, Repr

/-- One externally visible action of the program. -/
inductive Effect where
  /-- The call `log.Fatalln(msg)`: prints and calls `os.Exit(1)`; deferred calls do not run. -/
  | fatal (msg : String)
  /-- A `log.Println` or `log.Printf` line. -/
  | log (msg : String)
  | readFile (path : String)
  | parsePrivateKey
  | resolveTCPAddr (addr : String)
  /-- The transport dial `ssh.Dial("tcp", addr, conf)`. -/
  | sshDial (addr : String) (conf : ClientConfig)
  /-- The dial through the tunnel `sshConn.DialTCP("tcp", nil, remote)`. -/
  | dialTCP (session : Nat) (remote : String)
  | listenTCP (addr : String)
  | notify
  /-- A call of `listener.Accept()` that returned the connection `c`. -/
  | accept (c : Conn)
  /-- The statement `go forward(c, stream, errCh)`. -/
  | goForward (c stream : Conn)
  /-- The accept loop received a value from `sig`. -/
  | recvSig
  /-- The accept loop received the error `e` from `errCh`. -/
  | recvErr (e : String)
  /-- The accept loop sent a value on `sig`. -/
  | sendSig
  /-- The statement `<-sig` of `main` (line 130) returned. -/
  | mainRecvSig
  | closeSig
  | close (r : Res)
  /-- A call `io.Copy(dst, src)` made by `forward`. -/
  | copy (dst src : Conn)
  /-- The statement `errCh <- e` of `forward`. -/
  | sendErr (e : String)
  /-- The function `main` returned: the process ends with the given status. -/
  | exit (code : Nat)
  /-- A goroutine panics with the given message: the process ends, no deferred call of
  another goroutine runs. -/
  | panic (msg : String)
  deriving DecidableEq, Repr

/-- The results of the library calls that `main` makes before its accept loop. -/
structure Env where
  readFile : String → Except String String
  parsePrivateKey : String → Except String String
  resolveTCPAddr : String → Except String String
  sshDial : String → ClientConfig → Except String Nat
  dialTCP : Nat → String → Except String Conn
  listenTCP : String → Except String Nat

/-- What is held once startup has succeeded: `sshConn`, `sshFwdConn` and `listener`. -/
structure Handles where
  sshConn : Nat
  sshFwdConn : Conn
  listener : Nat
  deriving DecidableEq, Repr

/-- A startup stage: the effects performed, and the value produced unless the process exited. -/
abbrev Stage (α : Type) := List Effect × Option α

/-- Sequencing of stages: the second runs only if the first did not exit. -/
def Stage.andThen {α β : Type} (s : Stage α) (k : α → Stage β) : Stage β :=
  match s with
  | (t, none) => (t, none)
  | (t, some a) => (t ++ (k a).1, (k a).2)

/-- The function `checkErr` (lines 25-29) applied to the error of a call whose value is `r`:
`log.Fatalln(err)` when the error is not nil. -/
def checkErr {α : Type} (r : Except String α) : Stage α :=
  match r with
  | .error e => ([Effect.fatal e], none)
  | .ok a => ([], some a)

/-- A library call followed by `checkErr(err)`. -/
def checked {α : Type} (e : Effect) (r : Except String α) : Stage α :=
  Stage.andThen ([e], some ()) (fun _ => checkErr r)

/-- Lines 68-78 of `main`: the `switch` that chooses `auth`.  It has no `default` case. -/
def chooseAuth (cfg : Config) (env : Env) : Stage AuthMethod :=
  if cfg.keyfile ≠ "" then
    (checked (Effect.readFile cfg.keyfile) (env.readFile cfg.keyfile)).andThen fun b =>
    (checked Effect.parsePrivateKey (env.parsePrivateKey b)).andThen fun sign =>
    ([], some (AuthMethod.publicKeys sign))
  else if cfg.password ≠ "" then
    ([], some (AuthMethod.password cfg.password))
  else
    ([], some AuthMethod.unset)

/-- Lines 80-110 of `main`, from the `ssh.ClientConfig` literal to `signal.Notify`. -/
def connect (cfg : Config) (env : Env) (auth : AuthMethod) : Stage Handles :=
  let sshConf : ClientConfig := { user := cfg.user, auth := [auth] }
  (checked (Effect.resolveTCPAddr cfg.sshAddrStr) (env.resolveTCPAddr cfg.sshAddrStr)).andThen
    fun sshAddr =>
  (checked (Effect.sshDial sshAddr sshConf) (env.sshDial sshAddr sshConf)).andThen fun sshConn =>
  Stage.andThen ([Effect.log ("SSH established at: " ++ cfg.sshAddrStr)], some ()) fun _ =>
  (checked (Effect.resolveTCPAddr cfg.remoteAddrStr) (env.resolveTCPAddr cfg.remoteAddrStr)).andThen
    fun remoteAddr =>
  (checked (Effect.dialTCP sshConn remoteAddr) (env.dialTCP sshConn remoteAddr)).andThen
    fun sshFwdConn =>
  Stage.andThen ([Effect.log ("SSH tunnel established at: " ++ cfg.remoteAddrStr)], some ()) fun _ =>
  (checked (Effect.resolveTCPAddr cfg.localAddrStr) (env.resolveTCPAddr cfg.localAddrStr)).andThen
    fun localAddr =>
  (checked (Effect.listenTCP localAddr) (env.listenTCP localAddr)).andThen fun listener =>
  ([Effect.notify], some { sshConn := sshConn, sshFwdConn := sshFwdConn, listener := listener })

/-- Lines 62-110 of `main`: everything before the accept loop is started. -/
def startup (cfg : Config) (env : Env) : Stage Handles :=
  if cfg.remoteAddrStr = "" then
    ([Effect.fatal "Remote Address is missing..."], none)
  else
    Stage.andThen
      ([Effect.log ("Listening: " ++ cfg.localAddrStr ++ "; SSH Host: " ++ cfg.sshAddrStr ++
          "; Forwarding: " ++ cfg.remoteAddrStr ++ "\n\n")], some ()) fun _ =>
    (chooseAuth cfg env).andThen fun auth =>
    connect cfg env auth

/-! ## Projections of a trace -/

/-- The `Auth` slices of the transport dials of a trace, in order. -/
def sshDialAuths (t : List Effect) : List (List AuthMethod) :=
  t.filterMap fun e => match e with
    | Effect.sshDial _ conf => some conf.auth
    | _ => none

/-- The remote addresses of the dials through the tunnel of a trace, in order. -/
def tunnelDials (t : List Effect) : List String :=
  t.filterMap fun e => match e with
    | Effect.dialTCP _ remote => some remote
    | _ => none

/-- The addresses of the listeners bound in a trace. -/
def listens (t : List Effect) : List String :=
  t.filterMap fun e => match e with
    | Effect.listenTCP a => some a
    | _ => none

/-- The connections accepted in a trace, in order. -/
def accepted (t : List Effect) : List Conn :=
  t.filterMap fun e => match e with
    | Effect.accept c => some c
    | _ => none

/-- The forwarders spawned in a trace: the client connection and the stream of each. -/
def forwards (t : List Effect) : List (Conn × Conn) :=
  t.filterMap fun e => match e with
    | Effect.goForward c s => some (c, s)
    | _ => none

/-- The resources closed in a trace, in order. -/
def closes (t : List Effect) : List Res :=
  t.filterMap fun e => match e with
    | Effect.close r => some r
    | _ => none

/-- The messages sent on the error channel in a trace. -/
def sentErrs (t : List Effect) : List String :=
  t.filterMap fun e => match e with
    | Effect.sendErr e => some e
    | _ => none

/-- The trace ends the process: it has a fatal log line, an exit or a panic. -/
def endsProcess (t : List Effect) : Bool :=
  t.any fun e => match e with
    | Effect.fatal _ => true
    | Effect.exit _ => true
    | Effect.panic _ => true
    | _ => false

/-- The endings of the process in a trace: its fatal log lines, exits and panics. -/
def ends (t : List Effect) : List Effect :=
  t.filter fun e => match e with
    | Effect.fatal _ => true
    | Effect.exit _ => true
    | Effect.panic _ => true
    | _ => false

/-- The receives of `main` from `sig` in a trace (line 130). -/
def mainReceives (t : List Effect) : List Effect :=
  t.filter fun e => match e with
    | Effect.mainRecvSig => true
    | _ => false

/-- The part of a trace before the first call of `net.ListenTCP`. -/
def beforeListen (t : List Effect) : List Effect :=
  t.takeWhile fun e => match e with
    | Effect.listenTCP _ => false
    | _ => true

/-- The triggers the accept loop has consumed in a trace: its receives from `sig` and from
`errCh`. -/
def received (t : List Effect) : List Effect :=
  t.filter fun e => match e with
    | Effect.recvSig => true
    | Effect.recvErr _ => true
    | _ => false

/-! ## The forwarder (lines 41-59) -/

/-- The effects of one call of `forward`: those of the goroutine it spawns (lines 42-50, the
copy from the logical stream to the client) and those of the calling goroutine (lines 52-58,
the copy from the client to the logical stream). -/
structure ForwardTrace where
  remoteToLocal : List Effect
  localToRemote : List Effect
  deriving DecidableEq, Repr

/-- The function `forward` (lines 41-59).  The argument `toLocalErr` is the error returned by
`io.Copy(orgConn, sshFwdConn)` and `toRemoteErr` the one returned by
`io.Copy(sshFwdConn, orgConn)`; `none` is the nil error of a copy that ended with a clean
end-of-stream.  The format `%v` prints the cause. -/
def forward (orgConn sshFwdConn : Conn) (toLocalErr toRemoteErr : Option String) :
    ForwardTrace :=
  { remoteToLocal :=
      Effect.copy orgConn sshFwdConn ::
        (match toLocalErr with
         | some err => [Effect.sendErr ("io.Copy failed (remote -> local): " ++ err ++ "\n")]
         | none => [Effect.log ("Data sent to local host: " ++ orgConn.localAddr)]),
    localToRemote :=
      Effect.copy sshFwdConn orgConn ::
        (match toRemoteErr with
         | some err => [Effect.sendErr ("io.Copy failed (local -> remote): " ++ err ++ "\n")]
         | none => [Effect.log ("Data sent to remote host: " ++ sshFwdConn.remoteAddr)]) }

/-- The two copy directions of `forward`. -/
inductive Dir where
  | localToRemote
  | remoteToLocal
  deriving DecidableEq, Repr

/-! ## The accept loop and the shutdown path (lines 109-132)

After startup two goroutines of `main.go` matter: `main`, parked in `<-sig` (line 130), and
the accept loop (lines 112-129).  They are run against a schedule of events: what the
environment does (an interrupt, a copy of a forwarder returning, a result for the next
`listener.Accept`) and which goroutine moves next.  Both channels are unbuffered
(lines 109, 111), and the moves follow the rules of Go for them:

* a blocking send or receive completes only together with its counterpart;
* `signal.Notify` delivers with a send that does not block: an interrupt goes to a receiver
  already parked on `sig`, and is dropped otherwise;
* a case of a `select` with a `default` is taken only if it can proceed at once: the receive
  from `errCh` if a forwarder is blocked sending, the receive from `sig` only once `sig` is
  closed (its only blocking sender is the loop itself);
* a send on a closed channel panics, and a panic ends the process. -/

/-- Where the accept-loop goroutine stands: about to evaluate the `select` (line 114), inside
`listener.Accept()` (line 124, reached through the `default` case), at its send on `sig`
(line 117 or 121), or returned. -/
inductive Loc where
  | atSelect
  | inAccept
  | atSend
  | returned
  deriving DecidableEq, Repr

/-- Where the goroutine of `main` stands from line 130 on: parked in `<-sig`; past the
receive; past `close(sig)` (line 131); past the deferred `sshFwdConn.Close()` (line 100);
past the deferred `sshConn.Close()` (line 92), about to end the process. -/
inductive MainLoc where
  | parked
  | received
  | sigClosed
  | streamClosed
  | sessionClosed
  deriving DecidableEq, Repr

/-- The channel `sig` has been closed by line 131. -/
def MainLoc.closedSig : MainLoc → Bool
  | .parked => false
  | .received => false
  | .sigClosed => true
  | .streamClosed => true
  | .sessionClosed => true

/-- A forwarder spawned by line 126: its client connection, and which of its two copies
are still running. -/
structure Fwd where
  conn : Conn
  toLocalRunning : Bool
  toRemoteRunning : Bool
  deriving DecidableEq, Repr

/-- The running process after a successful startup. -/
structure Proc where
  h : Handles
  loc : Loc
  mainLoc : MainLoc
  /-- The process has ended: through `log.Fatalln`, a panic, or the return of `main`. -/
  exited : Bool
  /-- The errors of forwarders blocked in `errCh <- _e`, oldest first. -/
  errs : List String
  /-- The results that the next calls of `listener.Accept()` return, in order. -/
  backlog : List (Except String Conn)
  /-- The forwarders spawned so far, in order. -/
  fwds : List Fwd
  trace : List Effect

/-- An event of the schedule. -/
inductive Event where
  /-- The operating system delivers an interrupt to the process. -/
  | interrupt
  /-- The copy in direction `d` of the `i`-th forwarder returns, with the error `err`. -/
  | copyReturns (i : Nat) (d : Dir) (err : Option String)
  /-- The listener gets one more result to hand out: a queued connection, or a failure. -/
  | arrival (r : Except String Conn)
  /-- The accept-loop goroutine runs; `preferErr` is the choice of `select` when both of its
  receive cases are ready. -/
  | loopStep (preferErr : Bool)
  /-- The goroutine of `main` runs. -/
  | mainStep

/-- The process right after `go func()` of line 112, with `main` arrived at the `<-sig` of
line 130: no statement of `main` stands between the two. -/
def Proc.init (h : Handles) : Proc :=
  { h := h, loc := Loc.atSelect, mainLoc := MainLoc.parked, exited := false, errs := [],
    backlog := [], fwds := [], trace := [] }

/-- A receive case of the `select` can proceed: `sig` has been closed, or a forwarder is
blocked sending on `errCh`. -/
def Proc.triggerPending (p : Proc) : Bool :=
  p.mainLoc.closedSig || !p.errs.isEmpty

/-- The process dies of a send on the closed `sig`. -/
def panicStep (p : Proc) : Proc :=
  { p with exited := true, trace := p.trace ++ [Effect.panic "send on closed channel"] }

/-- An interrupt arrives: `signal.Notify` sends it on `sig` without blocking.  It is received
by `main` if `main` is parked in `<-sig`; it is dropped if `main` has left line 130 and `sig`
is still open; the send panics if `sig` is closed. -/
def interruptStep (p : Proc) : Proc :=
  match p.mainLoc with
  | .parked => { p with mainLoc := MainLoc.received, trace := p.trace ++ [Effect.mainRecvSig] }
  | .received => p
  | _ => panicStep p

/-- A copy of a forwarder returns (lines 43-49 or 52-58): with an error, the forwarder
blocks in `errCh <- _e` with the message that `forward` builds; without one, it ends. -/
def copyReturnsStep (i : Nat) (d : Dir) (err : Option String) (p : Proc) : Proc :=
  match p.fwds[i]? with
  | none => p
  | some f =>
    match d with
    | .remoteToLocal =>
      if f.toLocalRunning then
        { p with fwds := p.fwds.set i { f with toLocalRunning := false },
                 errs := p.errs ++
                   sentErrs (forward f.conn p.h.sshFwdConn err none).remoteToLocal }
      else p
    | .localToRemote =>
      if f.toRemoteRunning then
        { p with fwds := p.fwds.set i { f with toRemoteRunning := false },
                 errs := p.errs ++
                   sentErrs (forward f.conn p.h.sshFwdConn none err).localToRemote }
      else p

/-- The case `s := <-sig` of the `select` (lines 115-116), up to the send of line 117. -/
def sigCase (p : Proc) : Proc :=
  { p with loc := Loc.atSend,
           trace := p.trace ++ [Effect.recvSig, Effect.log "Shutting down SSH tunnel..."] }

/-- The case `e := <-errCh` of the `select` (lines 119-120), up to the send of line 121,
receiving from the forwarder that has been blocked longest. -/
def errCase (e : String) (rest : List String) (p : Proc) : Proc :=
  { p with errs := rest, loc := Loc.atSend,
           trace := p.trace ++ [Effect.recvErr e, Effect.log e] }

/-- The `select` of lines 114-127, up to the call of `Accept`: a receive case that can
proceed is taken, and the `default` case only when neither can. -/
def selectStep (preferErr : Bool) (p : Proc) : Proc :=
  match p.mainLoc.closedSig, p.errs with
  | true, [] => sigCase p
  | true, e :: rest => if preferErr then errCase e rest p else sigCase p
  | false, e :: rest => errCase e rest p
  | false, [] => { p with loc := Loc.inAccept }

/-- Lines 124-126: `listener.Accept()` returns, then `checkErr(err)` and `go forward(...)`. -/
def acceptStep (p : Proc) : Proc :=
  match p.backlog with
  | [] => p
  | .error e :: rest =>
    { p with backlog := rest, exited := true, trace := p.trace ++ [Effect.fatal e] }
  | .ok c :: rest =>
    { p with backlog := rest, loc := Loc.atSelect,
             fwds := p.fwds ++ [{ conn := c, toLocalRunning := true, toRemoteRunning := true }],
             trace := p.trace ++ [Effect.accept c, Effect.goForward c p.h.sshFwdConn] }

/-- The send on `sig` of line 117 or 121, followed by `return`.  It completes together with
the receive of `main` if `main` is parked in line 130; it blocks if `main` has left line 130
and `sig` is still open; it panics if `sig` is closed. -/
def sendStep (p : Proc) : Proc :=
  match p.mainLoc with
  | .parked =>
    { p with loc := Loc.returned, mainLoc := MainLoc.received,
             trace := p.trace ++ [Effect.sendSig, Effect.mainRecvSig] }
  | .received => p
  | _ => panicStep p

/-- What `main` does after its receive from `sig`: `close(sig)` (line 131), then its return,
which runs the deferred calls of lines 100 and 92 in reverse order of registration and ends
the process. -/
def teardown (h : Handles) : List Effect :=
  [Effect.closeSig, Effect.close (Res.conn h.sshFwdConn), Effect.close (Res.sshConn h.sshConn),
   Effect.exit 0]

/-- One statement of the goroutine of `main` from line 130 on.  Parked in `<-sig` it cannot
move by itself; after the receive it performs the effects of `teardown` one at a time. -/
def mainStep (p : Proc) : Proc :=
  match p.mainLoc with
  | .parked => p
  | .received =>
    { p with mainLoc := MainLoc.sigClosed, trace := p.trace ++ [Effect.closeSig] }
  | .sigClosed =>
    { p with mainLoc := MainLoc.streamClosed,
             trace := p.trace ++ [Effect.close (Res.conn p.h.sshFwdConn)] }
  | .streamClosed =>
    { p with mainLoc := MainLoc.sessionClosed,
             trace := p.trace ++ [Effect.close (Res.sshConn p.h.sshConn)] }
  | .sessionClosed =>
    { p with exited := true, trace := p.trace ++ [Effect.exit 0] }

/-- One event of the schedule. Nothing happens once the process has exited. -/
def step (ev : Event) (p : Proc) : Proc :=
  if p.exited then p
  else
    match ev with
    | .interrupt => interruptStep p
    | .copyReturns i d err => copyReturnsStep i d err p
    | .arrival r => { p with backlog := p.backlog ++ [r] }
    | .loopStep preferErr =>
      match p.loc with
      | .atSelect => selectStep preferErr p
      | .inAccept => acceptStep p
      | .atSend => sendStep p
      | .returned => p
    | .mainStep => mainStep p

/-- The process after a whole schedule. -/
def run (sched : List Event) (p : Proc) : Proc :=
  sched.foldl (fun q ev => step ev q) p

/-- The function `main` (lines 61-132): the effects of its startup, followed by those of its
two goroutines under the given schedule. -/
def main (cfg : Config) (env : Env) (sched : List Event) : List Effect :=
  match startup cfg env with
  | (t, none) => t
  | (t, some h) => t ++ (run sched (Proc.init h)).trace

/-- The schedule on which the connections `cs` arrive one by one and the accept loop takes
each through its `select` and its `Accept`. -/
def serve : List Conn → List Event
  | [] => []
  | c :: cs => Event.arrival (.ok c) :: Event.loopStep false :: Event.loopStep false :: serve cs

/-! ## The bytes moved by the copies

Every forwarder is started by line 126 with the same `sshFwdConn`, the stream opened once by
line 98.  The data plane therefore has one stream and one client end per accepted connection.
Each `io.Copy` repeats: read a chunk from its source, write it to its destination; with
error-free copies every read returns the next chunk and every write takes all of it. -/

/-- The client end of an accepted connection, as its forwarder sees it. -/
structure Client where
  /-- Chunks the client has written that reads of `orgConn` have yet to return. -/
  unread : List (List Byte)
  /-- Bytes written to `orgConn` so far, in order. -/
  received : List Byte
  deriving DecidableEq, Repr

/-- The data plane: the accepted clients and the one logical stream they are forwarded over. -/
structure Relay where
  clients : List Client
  /-- Bytes written to `sshFwdConn` so far, in order: what the remote side observes. -/
  toRemote : List Byte
  /-- Chunks produced by the remote side that reads of `sshFwdConn` have yet to return. -/
  fromRemote : List (List Byte)
  deriving DecidableEq, Repr

/-- One read-then-write round of a copy of the forwarder of client `i`: line 52 for
`localToRemote`, line 43 for `remoteToLocal`.  With nothing to read nothing moves. -/
def copyStep (i : Nat) (d : Dir) (r : Relay) : Relay :=
  match r.clients[i]? with
  | none => r
  | some c =>
    match d with
    | .localToRemote =>
      match c.unread with
      | [] => r
      | chunk :: rest =>
        { r with clients := r.clients.set i { c with unread := rest },
                 toRemote := r.toRemote ++ chunk }
    | .remoteToLocal =>
      match r.fromRemote with
      | [] => r
      | chunk :: rest =>
        { r with clients := r.clients.set i { c with received := c.received ++ chunk },
                 fromRemote := rest }

/-- The data plane after the copy rounds of a schedule, each naming a client and a direction. -/
def relay (sched : List (Nat × Dir)) (r : Relay) : Relay :=
  sched.foldl (fun q s => copyStep s.1 s.2 q) r

/-- Nothing is left to copy: every chunk written on either side has been read. -/
def Relay.drained (r : Relay) : Bool :=
  r.fromRemote.isEmpty && r.clients.all (fun c => c.unread.isEmpty)

/-- The schedule that runs the copy from client `i` for `up` rounds, then the copy to client
`i` for `down` rounds. -/
def drainSchedule (i up down : Nat) : List (Nat × Dir) :=
  List.replicate up (i, Dir.localToRemote) ++ List.replicate down (i, Dir.remoteToLocal)

/-- The data plane when the forwarders start: client `i` has written the chunks `ps[i]`, the
remote side has produced the chunks `q`, and nothing has been copied yet. -/
def Relay.start (ps : List (List (List Byte))) (q : List (List Byte)) : Relay :=
  { clients := ps.map (fun p => { unread := p, received := [] }), toRemote := [],
    fromRemote := q }

/-! ## Sample inputs -/

/-- Library results in which every call succeeds. -/
def okEnv : Env :=
  { readFile := fun _ => .ok "PEM",
    parsePrivateKey := fun b => .ok ("signer of " ++ b),
    resolveTCPAddr := fun a => .ok a,
    sshDial := fun _ _ => .ok 1,
    dialTCP := fun _ r => .ok { id := 0, localAddr := "tunnel", remoteAddr := r },
    listenTCP := fun _ => .ok 2 }

/-- Library results in which the key file cannot be parsed. -/
def badKeyEnv : Env :=
  { okEnv with parsePrivateKey := fun _ => .error "ssh: no key found" }

/-- Flag values with a password and no key. -/
def cfgPwd : Config :=
  { localAddrStr := "127.0.0.1:10080", sshAddrStr := "127.0.0.1:22",
    remoteAddrStr := "10.0.0.1:80", user := "u", password := "pw", keyfile := "" }

/-- Flag values with both a key and a password. -/
def cfgBoth : Config := { cfgPwd with keyfile := "id_rsa" }

/-- Flag values with neither a key nor a password. -/
def cfgNoAuth : Config := { cfgPwd with password := "" }

/-- Flag values without a remote address. -/
def cfgNoRemote : Config := { cfgPwd with remoteAddrStr := "" }

/-- The `n`-th client connection handed out by the listener. -/
def client (n : Nat) : Conn :=
  { id := n, localAddr := "127.0.0.1:10080", remoteAddr := "peer" }

/-- The handles that startup yields with `okEnv` and `cfgPwd`. -/
def okHandles : Handles :=
  { sshConn := 1, sshFwdConn := { id := 0, localAddr := "tunnel", remoteAddr := "10.0.0.1:80" },
    listener := 2 }

/-! ## Predicates on states and traces used by the theorems -/

/-- The effects that the startup code can perform: no accept, no spawn, no close, no exit
other than through `log.Fatalln`. -/
def startupEffect : Effect → Bool
  | .fatal _ | .log _ | .readFile _ | .parsePrivateKey | .resolveTCPAddr _ | .sshDial _ _
  | .dialTCP _ _ | .listenTCP _ | .notify => true
  | _ => false

/-- What `main` has closed when it stands at a given point of its tail. -/
def closedBy (h : Handles) : MainLoc → List Res
  | .parked => []
  | .received => []
  | .sigClosed => []
  | .streamClosed => [Res.conn h.sshFwdConn]
  | .sessionClosed => [Res.conn h.sshFwdConn, Res.sshConn h.sshConn]

/-- The kinds of move a process that has not ended can make on one event. -/
inductive Kind where
  /-- Nothing visible: a blocked goroutine, a dropped interrupt, an arrival at the listener,
  a copy returning. -/
  | quiet
  | interruptTaken
  | panicked
  | tookDefault
  | tookSig
  | tookErr (e : String)
  | acceptedConn (c : Conn)
  | acceptFailed (e : String)
  | handedOver
  | closedSig
  | closedStream
  | closedSession
  | exitedClean

/-- The effects a move appends to the trace. -/
def Kind.added (h : Handles) : Kind → List Effect
  | .quiet => []
  | .interruptTaken => [Effect.mainRecvSig]
  | .panicked => [Effect.panic "send on closed channel"]
  | .tookDefault => []
  | .tookSig => [Effect.recvSig, Effect.log "Shutting down SSH tunnel..."]
  | .tookErr e => [Effect.recvErr e, Effect.log e]
  | .acceptedConn c => [Effect.accept c, Effect.goForward c h.sshFwdConn]
  | .acceptFailed e => [Effect.fatal e]
  | .handedOver => [Effect.sendSig, Effect.mainRecvSig]
  | .closedSig => [Effect.closeSig]
  | .closedStream => [Effect.close (Res.conn h.sshFwdConn)]
  | .closedSession => [Effect.close (Res.sshConn h.sshConn)]
  | .exitedClean => [Effect.exit 0]

/-- The move ends the process. -/
def Kind.final : Kind → Bool
  | .panicked => true
  | .acceptFailed _ => true
  | .exitedClean => true
  | _ => false

/-- When a move can be made. -/
def Kind.guard (p : Proc) : Kind → Prop
  | .quiet => True
  | .interruptTaken => p.mainLoc = MainLoc.parked
  | .panicked => p.mainLoc.closedSig = true
  | .tookDefault => p.loc = Loc.atSelect ∧ p.errs = [] ∧ p.mainLoc.closedSig = false
  | .tookSig => p.loc = Loc.atSelect ∧ p.mainLoc.closedSig = true
  | .tookErr _ => p.loc = Loc.atSelect
  | .acceptedConn _ => p.loc = Loc.inAccept
  | .acceptFailed _ => p.loc = Loc.inAccept
  | .handedOver => p.loc = Loc.atSend ∧ p.mainLoc = MainLoc.parked
  | .closedSig => p.mainLoc = MainLoc.received
  | .closedStream => p.mainLoc = MainLoc.sigClosed
  | .closedSession => p.mainLoc = MainLoc.streamClosed
  | .exitedClean => p.mainLoc = MainLoc.sessionClosed

/-- Where the accept loop stands after a move. -/
def Kind.loc (l : Loc) : Kind → Loc
  | .tookDefault => Loc.inAccept
  | .tookSig => Loc.atSend
  | .tookErr _ => Loc.atSend
  | .acceptedConn _ => Loc.atSelect
  | .handedOver => Loc.returned
  | _ => l

/-- Where `main` stands after a move. -/
def Kind.mainLoc (m : MainLoc) : Kind → MainLoc
  | .interruptTaken => MainLoc.received
  | .handedOver => MainLoc.received
  | .closedSig => MainLoc.sigClosed
  | .closedStream => MainLoc.streamClosed
  | .closedSession => MainLoc.sessionClosed
  | _ => m

/-- The queue of forwarders blocked on `errCh` before and after a move: the `select` takes
the oldest, a quiet move can only add to it, any other move leaves it alone. -/
def Kind.errs (before after : List String) : Kind → Prop
  | .quiet => before <+: after
  | .tookErr e => before = e :: after
  | _ => after = before

/-- The process `q` comes from the process `p`, which has not ended, by one move. -/
def Trans (p q : Proc) : Prop :=
  ∃ k : Kind, k.guard p ∧ q.h = p.h ∧ q.trace = p.trace ++ k.added p.h ∧
    q.loc = k.loc p.loc ∧ q.mainLoc = k.mainLoc p.mainLoc ∧ q.exited = k.final ∧
    k.errs p.errs q.errs

/-- What holds of the running process after any schedule. -/
structure Inv (p : Proc) : Prop where
  dials : sshDialAuths p.trace = [] ∧ tunnelDials p.trace = [] ∧ listens p.trace = []
  fwd : forwards p.trace = (accepted p.trace).map (fun c => (c, p.h.sshFwdConn))
  closed : closes p.trace = closedBy p.h p.mainLoc
  ended : (ends p.trace).length = if p.exited = true then 1 else 0
  exit0 : ∀ c, Effect.exit c ∈ p.trace → c = 0 ∧ p.mainLoc = MainLoc.sessionClosed
  last : ∀ c, Effect.exit c ∈ p.trace → p.trace.getLast? = some (Effect.exit 0)
  sigc : p.mainLoc.closedSig = true → Effect.closeSig ∈ p.trace
  mainRecv : (mainReceives p.trace).length = if p.mainLoc = MainLoc.parked then 0 else 1
  loopRecv : (received p.trace).length =
    if p.loc = Loc.atSelect ∨ p.loc = Loc.inAccept then 0 else 1

/-- The accepts the loop can still make once a trigger is pending: one if it is already
inside `listener.Accept()`, none otherwise. -/
def slack (p : Proc) : Nat :=
  if p.exited = false ∧ p.loc = Loc.inAccept then 1 else 0

/-- The accept loop has left its `select` for good: it is at its send on `sig` or has
returned. -/
def LeftSelect (p : Proc) : Prop :=
  p.loc = Loc.atSend ∨ p.loc = Loc.returned

/-- The process has ended, or the loop has left its `select` for good, or a trigger is
pending. -/
def Latched (p : Proc) : Prop :=
  p.exited = true ∨ LeftSelect p ∨ p.triggerPending = true

/-- With one client on the stream, whatever has reached either side, followed by what is
still unread on the other, is what was written there: nothing is lost, added or reordered. -/
def Faithful (p q : List Byte) (r : Relay) : Prop :=
  ∃ c, r.clients = [c] ∧ r.toRemote ++ c.unread.flatten = p ∧
    c.received ++ r.fromRemote.flatten = q

/-- With any number of clients on the one stream, client `i` having written `p` and the
remote side `q`: what client `i` has had copied is a subsequence of what the stream has
received, and what client `i` has received is a subsequence of what has been read from the
stream.  Bytes keep their order and content, but those of different clients interleave. -/
def Interleaved (i : Nat) (p q : List Byte) (r : Relay) : Prop :=
  ∃ c d k, r.clients[i]? = some c ∧ d ++ c.unread.flatten = p ∧ d.Sublist r.toRemote ∧
    k ++ r.fromRemote.flatten = q ∧ c.received.Sublist k

/-- The accept loop stands in `listener.Accept()`, nothing is queued at the listener and
`main` is parked in `<-sig`. -/
def BlockedInAccept (p : Proc) : Prop :=
  p.exited = false ∧ p.loc = Loc.inAccept ∧ p.backlog = [] ∧ p.mainLoc = MainLoc.parked

/-- The events that bring neither a connection nor an interrupt: moves of the two
goroutines and copies of forwarders returning. -/
def Event.quiet : Event → Bool
  | .loopStep _ => true
  | .mainStep => true
  | .copyReturns _ _ _ => true
  | _ => false

/-! # Theorems -/

/-! ## Startup -/

@[simp] theorem Stage.andThen_none {α β : Type} (t : List Effect) (k : α → Stage β) :
    Stage.andThen (t, none) k = (t, none) := rfl

@[simp] theorem Stage.andThen_some {α β : Type} (t : List Effect) (a : α) (k : α → Stage β) :
    Stage.andThen (t, some a) k = (t ++ (k a).1, (k a).2) := rfl

@[simp] theorem checked_ok {α : Type} (e : Effect) (a : α) :
    checked e (Except.ok a : Except String α) = ([e], some a) := rfl

@[simp] theorem checked_error {α : Type} (e : Effect) (m : String) :
    checked e (Except.error m : Except String α) = ([e, Effect.fatal m], none) := rfl

theorem chooseAuth_effects (cfg : Config) (env : Env) :
    ∀ e ∈ (chooseAuth cfg env).1, startupEffect e = true := by
  unfold chooseAuth
  split_ifs with h1 h2
  · rcases hr : env.readFile cfg.keyfile with m | b
    · simp [startupEffect]
    · rcases hp : env.parsePrivateKey b with m | sign <;> simp [hp, startupEffect]
  · simp
  · simp

/-- The `switch` performs no dial, and stops the process exactly when it yields no method. -/
theorem chooseAuth_facts (cfg : Config) (env : Env) :
    sshDialAuths (chooseAuth cfg env).1 = [] ∧
    tunnelDials (chooseAuth cfg env).1 = [] ∧
    ((chooseAuth cfg env).2 = none → endsProcess (chooseAuth cfg env).1 = true) ∧
    ((chooseAuth cfg env).2 ≠ none → endsProcess (chooseAuth cfg env).1 = false) := by
  unfold chooseAuth
  split_ifs with h1 h2
  · rcases hr : env.readFile cfg.keyfile with m | b
    · simp [sshDialAuths, tunnelDials, endsProcess]
    · rcases hp : env.parsePrivateKey b with m | sign <;>
        simp [hp, sshDialAuths, tunnelDials, endsProcess]
  · simp [sshDialAuths, tunnelDials, endsProcess]
  · simp [sshDialAuths, tunnelDials, endsProcess]

/-- With a key file named, the `switch` yields only a key-based method, built from the
parsed content of that file. -/
theorem chooseAuth_key (cfg : Config) (env : Env) (hk : cfg.keyfile ≠ "") (a : AuthMethod)
    (ha : (chooseAuth cfg env).2 = some a) :
    ∃ b signer, env.readFile cfg.keyfile = .ok b ∧ env.parsePrivateKey b = .ok signer ∧
      a = AuthMethod.publicKeys signer := by
  unfold chooseAuth at ha
  rw [if_pos hk] at ha
  rcases hr : env.readFile cfg.keyfile with m | b
  · simp [hr] at ha
  · rcases hp : env.parsePrivateKey b with m | sign
    · simp [hr, hp] at ha
    · simp [hr, hp] at ha
      exact ⟨b, sign, rfl, hp, ha.symm⟩

/-- With no key file named, the `switch` always yields a method: the password one when a
password is given, and otherwise the unset zero value. -/
theorem chooseAuth_nokey (cfg : Config) (env : Env) (hk : cfg.keyfile = "") :
    chooseAuth cfg env =
      ([], some (if cfg.password ≠ "" then AuthMethod.password cfg.password
                 else AuthMethod.unset)) := by
  unfold chooseAuth
  simp only [hk, ne_eq, not_true_eq_false, if_false]
  split_ifs <;> rfl

theorem connect_effects (cfg : Config) (env : Env) (auth : AuthMethod) :
    ∀ e ∈ (connect cfg env auth).1, startupEffect e = true := by
  unfold connect
  rcases h1 : env.resolveTCPAddr cfg.sshAddrStr with m | sshAddr
  · simp [startupEffect]
  rcases h2 : env.sshDial sshAddr { user := cfg.user, auth := [auth] } with m | sshConn
  · simp [h2, startupEffect]
  rcases h3 : env.resolveTCPAddr cfg.remoteAddrStr with m | remoteAddr
  · simp [h2, h3, startupEffect]
  rcases h4 : env.dialTCP sshConn remoteAddr with m | sshFwdConn
  · simp [h2, h3, h4, startupEffect]
  rcases h5 : env.resolveTCPAddr cfg.localAddrStr with m | localAddr
  · simp [h2, h3, h4, h5, startupEffect]
  rcases h6 : env.listenTCP localAddr with m | listener
  · simp [h2, h3, h4, h5, h6, startupEffect]
  · simp [h2, h3, h4, h5, h6, startupEffect]

/-- The dials of lines 87-110: the transport dial is made with the one-element slice holding
`auth` as soon as the SSH address resolves; at most one stream is opened, exactly one when
startup goes through; the process ends exactly when startup does not go through. -/
theorem connect_facts (cfg : Config) (env : Env) (auth : AuthMethod) :
    sshDialAuths (connect cfg env auth).1 =
      (match env.resolveTCPAddr cfg.sshAddrStr with
       | .ok _ => [[auth]]
       | .error _ => []) ∧
    (tunnelDials (connect cfg env auth).1).length ≤ 1 ∧
    ((connect cfg env auth).2 = none → endsProcess (connect cfg env auth).1 = true) ∧
    ((connect cfg env auth).2 ≠ none →
      endsProcess (connect cfg env auth).1 = false ∧
      (tunnelDials (connect cfg env auth).1).length = 1) := by
  unfold connect
  rcases h1 : env.resolveTCPAddr cfg.sshAddrStr with m | sshAddr
  · simp [sshDialAuths, tunnelDials, endsProcess]
  rcases h2 : env.sshDial sshAddr { user := cfg.user, auth := [auth] } with m | sshConn
  · simp [h2, sshDialAuths, tunnelDials, endsProcess]
  rcases h3 : env.resolveTCPAddr cfg.remoteAddrStr with m | remoteAddr
  · simp [h2, h3, sshDialAuths, tunnelDials, endsProcess]
  rcases h4 : env.dialTCP sshConn remoteAddr with m | sshFwdConn
  · simp [h2, h3, h4, sshDialAuths, tunnelDials, endsProcess]
  rcases h5 : env.resolveTCPAddr cfg.localAddrStr with m | localAddr
  · simp [h2, h3, h4, h5, sshDialAuths, tunnelDials, endsProcess]
  rcases h6 : env.listenTCP localAddr with m | listener
  · simp [h2, h3, h4, h5, h6, sshDialAuths, tunnelDials, endsProcess]
  · simp [h2, h3, h4, h5, h6, sshDialAuths, tunnelDials, endsProcess]

theorem startup_effects (cfg : Config) (env : Env) :
    ∀ e ∈ (startup cfg env).1, startupEffect e = true := by
  unfold startup
  split_ifs with h
  · simp [startupEffect]
  · rcases hc : chooseAuth cfg env with ⟨t, _ | auth⟩
    · have := chooseAuth_effects cfg env
      rw [hc] at this
      simpa [startupEffect] using this
    · have h1 := chooseAuth_effects cfg env
      have h2 := connect_effects cfg env auth
      rw [hc] at h1
      intro e he
      simp only [Stage.andThen_some, List.mem_append, List.mem_singleton] at he
      rcases he with rfl | he | he
      · rfl
      · exact h1 e he
      · exact h2 e he

/-- The transport dials of startup: none without a remote address or without a method from
the `switch`; otherwise one, made with the one-element slice holding that method, as soon
as the SSH address resolves. -/
theorem startup_sshDialAuths (cfg : Config) (env : Env) :
    sshDialAuths (startup cfg env).1 =
      (if cfg.remoteAddrStr = "" then []
       else match (chooseAuth cfg env).2, env.resolveTCPAddr cfg.sshAddrStr with
         | some auth, .ok _ => [[auth]]
         | _, _ => []) := by
  unfold startup
  split_ifs with h
  · simp [sshDialAuths]
  · have hc1 := (chooseAuth_facts cfg env).1
    rcases hc : chooseAuth cfg env with ⟨t, _ | auth⟩
    · rw [hc] at hc1
      simp only [sshDialAuths] at hc1
      simp [sshDialAuths, hc1]
    · rw [hc] at hc1
      have h2 := (connect_facts cfg env auth).1
      simp only [sshDialAuths] at hc1 h2
      simp only [Stage.andThen_some, sshDialAuths, List.filterMap_append, hc1, h2]
      rcases env.resolveTCPAddr cfg.sshAddrStr with m | a <;> simp

/-- At most one logical stream is opened by startup; when startup goes through, exactly one
was opened and the process has not ended; when it does not, the process has ended. -/
theorem startup_facts (cfg : Config) (env : Env) :
    (tunnelDials (startup cfg env).1).length ≤ 1 ∧
    ((startup cfg env).2 = none → endsProcess (startup cfg env).1 = true) ∧
    ((startup cfg env).2 ≠ none →
      endsProcess (startup cfg env).1 = false ∧
      (tunnelDials (startup cfg env).1).length = 1) := by
  unfold startup
  split_ifs with h
  · simp [tunnelDials, endsProcess]
  · have hc2 := chooseAuth_facts cfg env
    rcases hc : chooseAuth cfg env with ⟨t, _ | auth⟩
    · rw [hc] at hc2
      simp only [tunnelDials, endsProcess] at hc2
      simp [tunnelDials, endsProcess, hc2.2.1, hc2.2.2.1]
    · rw [hc] at hc2
      have h2 := connect_facts cfg env auth
      simp only [tunnelDials, endsProcess] at hc2 h2
      have hf := hc2.2.2.2 (by simp)
      refine ⟨?_, ?_, ?_⟩
      · simpa [tunnelDials, hc2.2.1] using h2.2.1
      · intro hn
        simp only [Stage.andThen_some] at hn
        simp [endsProcess, h2.2.2.1 hn]
      · intro hn
        simp only [Stage.andThen_some] at hn
        have h3 := h2.2.2.2 hn
        simp [tunnelDials, endsProcess, hc2.2.1, hf, h3.1, h3.2]

theorem startup_no_remote (cfg : Config) (env : Env) (h : cfg.remoteAddrStr = "") :
    startup cfg env = ([Effect.fatal "Remote Address is missing..."], none) := by
  simp [startup, h]

/-- C1: when the remote address option is the empty string, `main` logs the fatal message and
exits at once, whatever the other options, the library results and the schedule: its trace
is that one fatal line, so it holds no transport dial, no dial through the tunnel, no bound
listener and no accepted connection. -/
theorem C1_empty_remote_exits_before_dial (cfg : Config) (env : Env) (sched : List Event)
    (h : cfg.remoteAddrStr = "") :
    main cfg env sched = [Effect.fatal "Remote Address is missing..."] ∧
    sshDialAuths (main cfg env sched) = [] ∧
    tunnelDials (main cfg env sched) = [] ∧
    listens (main cfg env sched) = [] ∧
    accepted (main cfg env sched) = [] ∧
    endsProcess (main cfg env sched) = true := by
  have hm : main cfg env sched = [Effect.fatal "Remote Address is missing..."] := by
    simp [main, startup_no_remote cfg env h]
  rw [hm]
  simp [sshDialAuths, tunnelDials, listens, accepted, endsProcess]

theorem C1_empty_remote_exits_before_dial_witness :
    cfgNoRemote.remoteAddrStr = "" ∧
    main cfgNoRemote okEnv [Event.arrival (.ok (client 1)), Event.loopStep false,
        Event.loopStep false] = [Effect.fatal "Remote Address is missing..."] :=
  ⟨by decide,
   (C1_empty_remote_exits_before_dial cfgNoRemote okEnv
      [Event.arrival (.ok (client 1)), Event.loopStep false, Event.loopStep false]
      (by decide)).1⟩

/-! ## The running process -/

theorem run_nil (p : Proc) : run [] p = p := rfl

theorem run_cons (ev : Event) (s : List Event) (p : Proc) :
    run (ev :: s) p = run s (step ev p) := rfl

theorem run_append (s₁ s₂ : List Event) (p : Proc) :
    run (s₁ ++ s₂) p = run s₂ (run s₁ p) := by
  simp [run, List.foldl_append]

theorem step_exited (ev : Event) (p : Proc) (hx : p.exited = true) : step ev p = p := by
  simp [step, hx]

theorem run_exited (sched : List Event) (p : Proc) (hx : p.exited = true) :
    run sched p = p := by
  induction sched with
  | nil => rfl
  | cons ev s ih => rw [run_cons, step_exited ev p hx, ih]

theorem sshDialAuths_append (a b : List Effect) :
    sshDialAuths (a ++ b) = sshDialAuths a ++ sshDialAuths b := by
  simp [sshDialAuths, List.filterMap_append]

theorem tunnelDials_append (a b : List Effect) :
    tunnelDials (a ++ b) = tunnelDials a ++ tunnelDials b := by
  simp [tunnelDials, List.filterMap_append]

theorem listens_append (a b : List Effect) : listens (a ++ b) = listens a ++ listens b := by
  simp [listens, List.filterMap_append]

theorem accepted_append (a b : List Effect) : accepted (a ++ b) = accepted a ++ accepted b := by
  simp [accepted, List.filterMap_append]

theorem forwards_append (a b : List Effect) : forwards (a ++ b) = forwards a ++ forwards b := by
  simp [forwards, List.filterMap_append]

theorem closes_append (a b : List Effect) : closes (a ++ b) = closes a ++ closes b := by
  simp [closes, List.filterMap_append]

theorem ends_append (a b : List Effect) : ends (a ++ b) = ends a ++ ends b := by
  simp [ends, List.filter_append]

theorem received_append (a b : List Effect) : received (a ++ b) = received a ++ received b := by
  simp [received, List.filter_append]

theorem mainReceives_append (a b : List Effect) :
    mainReceives (a ++ b) = mainReceives a ++ mainReceives b := by
  simp [mainReceives, List.filter_append]

/-- A move that changes nothing but the queues. -/
theorem Trans.ofQuiet (p q : Proc) (hx : p.exited = false) (hh : q.h = p.h)
    (ht : q.trace = p.trace) (hl : q.loc = p.loc) (hm : q.mainLoc = p.mainLoc)
    (hq : q.exited = p.exited) (he : p.errs <+: q.errs) : Trans p q :=
  ⟨Kind.quiet, trivial, hh, by simp [ht, Kind.added], hl, hm, by rw [hq, hx]; rfl, he⟩

theorem panicStep_trans (p : Proc) (hc : p.mainLoc.closedSig = true) :
    Trans p (panicStep p) :=
  ⟨Kind.panicked, hc, rfl, rfl, rfl, rfl, rfl, rfl⟩

theorem interruptStep_trans (p : Proc) (hx : p.exited = false) :
    Trans p (interruptStep p) := by
  unfold interruptStep
  rcases hm : p.mainLoc with _ | _ | _ | _ | _
  · exact ⟨Kind.interruptTaken, hm, rfl, rfl, rfl, rfl, hx, rfl⟩
  · exact Trans.ofQuiet p p hx rfl rfl rfl rfl rfl (List.prefix_refl _)
  · exact panicStep_trans p (by rw [hm]; rfl)
  · exact panicStep_trans p (by rw [hm]; rfl)
  · exact panicStep_trans p (by rw [hm]; rfl)

theorem copyReturnsStep_trans (i : Nat) (d : Dir) (err : Option String) (p : Proc)
    (hx : p.exited = false) : Trans p (copyReturnsStep i d err p) := by
  unfold copyReturnsStep
  rcases p.fwds[i]? with _ | f
  · exact Trans.ofQuiet p p hx rfl rfl rfl rfl rfl (List.prefix_refl _)
  · cases d with
    | localToRemote =>
      dsimp only
      split_ifs
      · exact Trans.ofQuiet p _ hx rfl rfl rfl rfl rfl (List.prefix_append _ _)
      · exact Trans.ofQuiet p p hx rfl rfl rfl rfl rfl (List.prefix_refl _)
    | remoteToLocal =>
      dsimp only
      split_ifs
      · exact Trans.ofQuiet p _ hx rfl rfl rfl rfl rfl (List.prefix_append _ _)
      · exact Trans.ofQuiet p p hx rfl rfl rfl rfl rfl (List.prefix_refl _)

theorem selectStep_trans (b : Bool) (p : Proc) (hx : p.exited = false)
    (hl : p.loc = Loc.atSelect) : Trans p (selectStep b p) := by
  unfold selectStep
  rcases hc : p.mainLoc.closedSig <;> rcases he : p.errs with _ | ⟨e, rest⟩
  · exact ⟨Kind.tookDefault, ⟨hl, he, hc⟩, rfl, by simp [Kind.added], rfl, rfl, hx, he.symm⟩
  · exact ⟨Kind.tookErr e, hl, rfl, rfl, rfl, rfl, hx, he⟩
  · exact ⟨Kind.tookSig, ⟨hl, hc⟩, rfl, rfl, rfl, rfl, hx, rfl⟩
  · cases b
    · exact ⟨Kind.tookSig, ⟨hl, hc⟩, rfl, rfl, rfl, rfl, hx, rfl⟩
    · exact ⟨Kind.tookErr e, hl, rfl, rfl, rfl, rfl, hx, he⟩

theorem acceptStep_trans (p : Proc) (hx : p.exited = false) (hl : p.loc = Loc.inAccept) :
    Trans p (acceptStep p) := by
  unfold acceptStep
  rcases p.backlog with _ | ⟨_ | c, rest⟩
  · exact Trans.ofQuiet p p hx rfl rfl rfl rfl rfl (List.prefix_refl _)
  · exact ⟨Kind.acceptFailed _, hl, rfl, rfl, rfl, rfl, rfl, rfl⟩
  · exact ⟨Kind.acceptedConn c, hl, rfl, rfl, rfl, rfl, hx, rfl⟩

theorem sendStep_trans (p : Proc) (hx : p.exited = false) (hl : p.loc = Loc.atSend) :
    Trans p (sendStep p) := by
  unfold sendStep
  rcases hm : p.mainLoc with _ | _ | _ | _ | _
  · exact ⟨Kind.handedOver, ⟨hl, hm⟩, rfl, rfl, rfl, rfl, hx, rfl⟩
  · exact Trans.ofQuiet p p hx rfl rfl rfl rfl rfl (List.prefix_refl _)
  · exact panicStep_trans p (by rw [hm]; rfl)
  · exact panicStep_trans p (by rw [hm]; rfl)
  · exact panicStep_trans p (by rw [hm]; rfl)

theorem mainStep_trans (p : Proc) (hx : p.exited = false) : Trans p (mainStep p) := by
  unfold mainStep
  rcases hm : p.mainLoc with _ | _ | _ | _ | _
  · exact Trans.ofQuiet p p hx rfl rfl rfl rfl rfl (List.prefix_refl _)
  · exact ⟨Kind.closedSig, hm, rfl, rfl, rfl, rfl, hx, rfl⟩
  · exact ⟨Kind.closedStream, hm, rfl, rfl, rfl, rfl, hx, rfl⟩
  · exact ⟨Kind.closedSession, hm, rfl, rfl, rfl, rfl, hx, rfl⟩
  · exact ⟨Kind.exitedClean, hm, rfl, rfl, rfl, hm.symm ▸ rfl, rfl, rfl⟩

/-- Every event moves a process that has not ended by one of the moves of `Kind`. -/
theorem step_trans (ev : Event) (p : Proc) (hx : p.exited = false) : Trans p (step ev p) := by
  unfold step
  rw [if_neg (by simp [hx])]
  cases ev with
  | interrupt => exact interruptStep_trans p hx
  | copyReturns i d err => exact copyReturnsStep_trans i d err p hx
  | arrival r => exact Trans.ofQuiet p _ hx rfl rfl rfl rfl rfl (List.prefix_refl _)
  | loopStep b =>
    rcases hl : p.loc with _ | _ | _ | _
    · exact selectStep_trans b p hx hl
    · exact acceptStep_trans p hx hl
    · exact sendStep_trans p hx hl
    · exact Trans.ofQuiet p p hx rfl rfl rfl rfl rfl (List.prefix_refl _)
  | mainStep => exact mainStep_trans p hx

theorem Kind.added_proj (h : Handles) (k : Kind) :
    sshDialAuths (k.added h) = [] ∧ tunnelDials (k.added h) = [] ∧ listens (k.added h) = [] ∧
    forwards (k.added h) = (accepted (k.added h)).map (fun c => (c, h.sshFwdConn)) := by
  cases k <;> exact ⟨rfl, rfl, rfl, rfl⟩

theorem not_exit_of_ends_nil {t : List Effect} (h : (ends t).length = 0) (c : Nat) :
    Effect.exit c ∉ t := by
  intro hc
  have hm : Effect.exit c ∈ ends t := by
    unfold ends
    exact List.mem_filter.mpr ⟨hc, rfl⟩
  rw [List.length_eq_zero.mp h] at hm
  cases hm

theorem trans_inv (p q : Proc) (hx : p.exited = false) (ht : Trans p q) (hp : Inv p) :
    Inv q := by
  obtain ⟨k, hg, hh, htr, hl, hm, hq, _⟩ := ht
  obtain ⟨⟨d1, d2, d3⟩, hf, hc, he, h0, _, hsc, hmr, hlr⟩ := hp
  obtain ⟨a1, a2, a3, a4⟩ := Kind.added_proj p.h k
  rw [hx] at he
  have hne := not_exit_of_ends_nil (by rw [he]; rfl : (ends p.trace).length = 0)
  refine ⟨⟨?_, ?_, ?_⟩, ?_, ?_, ?_, ?_, ?_, ?_, ?_, ?_⟩
  · rw [htr, sshDialAuths_append, d1, a1]; rfl
  · rw [htr, tunnelDials_append, d2, a2]; rfl
  · rw [htr, listens_append, d3, a3]; rfl
  · rw [htr, forwards_append, accepted_append, hf, a4, hh, List.map_append]
  · rw [htr, closes_append, hc, hh, hm]
    cases k <;> simp_all [Kind.guard, Kind.added, Kind.mainLoc, closedBy, closes]
  · rw [htr, ends_append, List.length_append, he, hq]
    cases k <;> simp [Kind.added, Kind.final, ends]
  · intro c hc'
    rw [htr, List.mem_append] at hc'
    rw [hm]
    rcases hc' with hc' | hc'
    · have := h0 c hc'
      cases k <;> simp_all [Kind.guard, Kind.mainLoc, MainLoc.closedSig]
    · cases k <;> simp_all [Kind.guard, Kind.added, Kind.mainLoc]
  · intro c hc'
    rw [htr, List.mem_append] at hc'
    rcases hc' with hc' | hc'
    · exact absurd hc' (hne c)
    · rw [htr]
      cases k <;> simp_all [Kind.added]
  · intro hcs
    rw [hm] at hcs
    rw [htr, List.mem_append]
    cases k <;> simp_all [Kind.guard, Kind.added, Kind.mainLoc, MainLoc.closedSig]
  · rw [htr, mainReceives_append, List.length_append, hmr, hm]
    cases k <;> simp_all [Kind.guard, Kind.added, Kind.mainLoc, mainReceives, MainLoc.closedSig]
  · rw [htr, received_append, List.length_append, hlr, hl]
    cases k <;> simp_all [Kind.guard, Kind.added, Kind.loc, received]

theorem step_inv (ev : Event) (p : Proc) (hp : Inv p) : Inv (step ev p) := by
  rcases hx : p.exited with _ | _
  · exact trans_inv p _ hx (step_trans ev p hx) hp
  · rw [step_exited ev p hx]
    exact hp

theorem run_inv (sched : List Event) (p : Proc) (hp : Inv p) : Inv (run sched p) := by
  induction sched generalizing p with
  | nil => exact hp
  | cons ev s ih => exact ih (step ev p) (step_inv ev p hp)

theorem step_h (ev : Event) (p : Proc) : (step ev p).h = p.h := by
  rcases hx : p.exited with _ | _
  · obtain ⟨_, _, hh, _⟩ := step_trans ev p hx
    exact hh
  · rw [step_exited ev p hx]

theorem run_h (sched : List Event) (p : Proc) : (run sched p).h = p.h := by
  induction sched generalizing p with
  | nil => rfl
  | cons ev s ih => rw [run_cons, ih, step_h]

theorem init_inv (h : Handles) : Inv (Proc.init h) :=
  ⟨⟨rfl, rfl, rfl⟩, rfl, rfl, rfl, (by intro c hc; cases hc), (by intro c hc; cases hc),
   (by intro hc; cases hc), rfl, rfl⟩

/-- After any schedule the running process obeys `Inv`. -/
theorem run_init_inv (sched : List Event) (h : Handles) : Inv (run sched (Proc.init h)) :=
  run_inv sched (Proc.init h) (init_inv h)

/-- The startup code accepts nothing, spawns nothing and closes nothing. -/
theorem startup_quiet (cfg : Config) (env : Env) :
    accepted (startup cfg env).1 = [] ∧ forwards (startup cfg env).1 = [] ∧
    closes (startup cfg env).1 = [] := by
  have h := startup_effects cfg env
  refine ⟨?_, ?_, ?_⟩
  · simp only [accepted, List.filterMap_eq_nil_iff]
    intro e he
    have := h e he
    cases e <;> simp_all [startupEffect]
  · simp only [forwards, List.filterMap_eq_nil_iff]
    intro e he
    have := h e he
    cases e <;> simp_all [startupEffect]
  · simp only [closes, List.filterMap_eq_nil_iff]
    intro e he
    have := h e he
    cases e <;> simp_all [startupEffect]

theorem main_of_startup_none (cfg : Config) (env : Env) (sched : List Event)
    (hs : (startup cfg env).2 = none) : main cfg env sched = (startup cfg env).1 := by
  unfold main
  rcases h : startup cfg env with ⟨t, _ | hd⟩
  · rfl
  · rw [h] at hs; cases hs

theorem main_of_startup_some (cfg : Config) (env : Env) (sched : List Event) (h : Handles)
    (hs : (startup cfg env).2 = some h) :
    main cfg env sched = (startup cfg env).1 ++ (run sched (Proc.init h)).trace := by
  unfold main
  rcases h' : startup cfg env with ⟨t, _ | hd⟩
  · rw [h'] at hs; cases hs
  · rw [h'] at hs
    cases hs
    rfl

/-- The transport dials of a whole run are those of startup: the accept loop, the forwarder
spawns and the teardown dial nothing. -/
theorem main_sshDialAuths (cfg : Config) (env : Env) (sched : List Event) :
    sshDialAuths (main cfg env sched) = sshDialAuths (startup cfg env).1 := by
  rcases hs : (startup cfg env).2 with _ | h
  · rw [main_of_startup_none cfg env sched hs]
  · rw [main_of_startup_some cfg env sched h hs, sshDialAuths_append,
      (run_init_inv sched h).dials.1, List.append_nil]

theorem main_tunnelDials (cfg : Config) (env : Env) (sched : List Event) :
    tunnelDials (main cfg env sched) = tunnelDials (startup cfg env).1 := by
  rcases hs : (startup cfg env).2 with _ | h
  · rw [main_of_startup_none cfg env sched hs]
  · rw [main_of_startup_some cfg env sched h hs, tunnelDials_append,
      (run_init_inv sched h).dials.2.1, List.append_nil]

theorem main_accepted_none (cfg : Config) (env : Env) (sched : List Event)
    (hs : (startup cfg env).2 = none) :
    accepted (main cfg env sched) = [] ∧ forwards (main cfg env sched) = [] := by
  rw [main_of_startup_none cfg env sched hs]
  exact ⟨(startup_quiet cfg env).1, (startup_quiet cfg env).2.1⟩

theorem main_accepted_some (cfg : Config) (env : Env) (sched : List Event) (h : Handles)
    (hs : (startup cfg env).2 = some h) :
    accepted (main cfg env sched) = accepted (run sched (Proc.init h)).trace ∧
    forwards (main cfg env sched) =
      (accepted (main cfg env sched)).map (fun c => (c, h.sshFwdConn)) := by
  rw [main_of_startup_some cfg env sched h hs]
  obtain ⟨q1, q2, _⟩ := startup_quiet cfg env
  have h4 := (run_init_inv sched h).fwd
  rw [run_h] at h4
  rw [accepted_append, forwards_append, q1, q2, h4]
  exact ⟨rfl, rfl⟩

theorem main_closes (cfg : Config) (env : Env) (sched : List Event) (h : Handles)
    (hs : (startup cfg env).2 = some h) :
    closes (main cfg env sched) = closedBy h (run sched (Proc.init h)).mainLoc := by
  rw [main_of_startup_some cfg env sched h hs, closes_append, (startup_quiet cfg env).2.2,
    (run_init_inv sched h).closed, run_h]
  rfl

/-! ## Credentials (lines 68-85) -/

/-- C9: with a password given, `main` hands the transport dial a one-element `Auth` slice,
and makes at most one such dial.  When a key file is named as well, the element is the
key-based method built from the parsed content of that file and the password is not used;
when no key file is named it is the password-based method.  The dial is made whenever a
remote address is given, the `switch` yields a method and the SSH address resolves. -/
theorem C9_credential_precedence (cfg : Config) (env : Env) (sched : List Event)
    (hp : cfg.password ≠ "") :
    (sshDialAuths (main cfg env sched)).length ≤ 1 ∧
    (∀ a ∈ sshDialAuths (main cfg env sched),
      a.length = 1 ∧
      (cfg.keyfile ≠ "" → ∃ b signer, env.readFile cfg.keyfile = .ok b ∧
        env.parsePrivateKey b = .ok signer ∧ a = [AuthMethod.publicKeys signer]) ∧
      (cfg.keyfile = "" → a = [AuthMethod.password cfg.password])) ∧
    (cfg.remoteAddrStr ≠ "" → (chooseAuth cfg env).2 ≠ none →
      (∃ addr, env.resolveTCPAddr cfg.sshAddrStr = .ok addr) →
      (sshDialAuths (main cfg env sched)).length = 1) := by
  rw [main_sshDialAuths, startup_sshDialAuths]
  by_cases hr : cfg.remoteAddrStr = ""
  · simp [hr]
  · rw [if_neg hr]
    rcases hc : (chooseAuth cfg env).2 with _ | auth
    · simp
    · rcases hres : env.resolveTCPAddr cfg.sshAddrStr with m | addr
      · simp
      · refine ⟨by simp, ?_, by simp⟩
        intro a ha
        simp only [List.mem_singleton] at ha
        subst ha
        refine ⟨rfl, ?_, ?_⟩
        · intro hk
          obtain ⟨b, signer, h1, h2, h3⟩ := chooseAuth_key cfg env hk auth hc
          exact ⟨b, signer, h1, h2, by rw [h3]⟩
        · intro hk
          have := chooseAuth_nokey cfg env hk
          rw [this, if_pos hp] at hc
          simp only [Option.some.injEq] at hc
          rw [hc]

theorem C9_credential_precedence_witness :
    cfgBoth.password ≠ "" ∧ cfgBoth.keyfile ≠ "" ∧
    sshDialAuths (main cfgBoth okEnv []) = [[AuthMethod.publicKeys "signer of PEM"]] ∧
    (∀ a ∈ sshDialAuths (main cfgBoth okEnv []), a.length = 1) :=
  ⟨by decide, by decide, by decide,
   fun a ha => ((C9_credential_precedence cfgBoth okEnv [] (by decide)).2.1 a ha).1⟩

/-- With neither a key file nor a password, the `switch` of lines 69-78 matches no case and
`auth` keeps its zero value: every transport dial of the run is made with the slice holding
that unset method, and one is made as soon as the SSH address resolves. -/
theorem missing_auth_dials_unset (cfg : Config) (env : Env) (sched : List Event)
    (hr : cfg.remoteAddrStr ≠ "") (hk : cfg.keyfile = "") (hp : cfg.password = "") :
    sshDialAuths (main cfg env sched) =
      (match env.resolveTCPAddr cfg.sshAddrStr with
       | .ok _ => [[AuthMethod.unset]]
       | .error _ => []) := by
  rw [main_sshDialAuths, startup_sshDialAuths, if_neg hr, chooseAuth_nokey cfg env hk]
  simp only [hp, ne_eq, not_true_eq_false, if_false]
  rcases env.resolveTCPAddr cfg.sshAddrStr with m | a <;> rfl

theorem missing_auth_dials_unset_witness :
    sshDialAuths (main cfgNoAuth okEnv []) = [[AuthMethod.unset]] :=
  missing_auth_dials_unset cfgNoAuth okEnv [] (by decide) (by decide) (by decide)

/-- With a key file named that cannot be read or parsed, `checkErr` ends the process inside
the `switch`: no transport dial, no dial through the tunnel, and nothing is accepted. -/
theorem invalid_key_exits_before_dial (cfg : Config) (env : Env) (sched : List Event)
    (hk : cfg.keyfile ≠ "")
    (hbad : ∀ b, env.readFile cfg.keyfile = .ok b → ∃ m, env.parsePrivateKey b = .error m) :
    sshDialAuths (main cfg env sched) = [] ∧ tunnelDials (main cfg env sched) = [] ∧
    accepted (main cfg env sched) = [] ∧ endsProcess (main cfg env sched) = true := by
  have hc : (chooseAuth cfg env).2 = none := by
    rcases h : (chooseAuth cfg env).2 with _ | a
    · rfl
    · obtain ⟨b, signer, h1, h2, _⟩ := chooseAuth_key cfg env hk a h
      obtain ⟨m, hm⟩ := hbad b h1
      rw [hm] at h2
      cases h2
  have hf := chooseAuth_facts cfg env
  have hs : startup cfg env =
      if cfg.remoteAddrStr = "" then ([Effect.fatal "Remote Address is missing..."], none)
      else (Effect.log ("Listening: " ++ cfg.localAddrStr ++ "; SSH Host: " ++ cfg.sshAddrStr
          ++ "; Forwarding: " ++ cfg.remoteAddrStr ++ "\n\n") :: (chooseAuth cfg env).1,
        none) := by
    unfold startup
    split_ifs
    · rfl
    · rcases h : chooseAuth cfg env with ⟨t, _ | a⟩
      · rfl
      · rw [h] at hc; cases hc
  have hn : (startup cfg env).2 = none := by
    rw [hs]; split_ifs <;> rfl
  rw [main_sshDialAuths, main_tunnelDials, (main_accepted_none cfg env sched hn).1,
    main_of_startup_none cfg env sched hn, hs]
  have e1 := hf.1
  have e2 := hf.2.1
  have e3 := hf.2.2.1 hc
  simp only [sshDialAuths, tunnelDials, endsProcess] at e1 e2 e3
  split_ifs
  · simp [sshDialAuths, tunnelDials, endsProcess]
  · simp [sshDialAuths, tunnelDials, endsProcess, e1, e2, e3]

theorem invalid_key_exits_before_dial_witness :
    main cfgBoth badKeyEnv [] =
      [Effect.log "Listening: 127.0.0.1:10080; SSH Host: 127.0.0.1:22; Forwarding: 10.0.0.1:80\n\n",
       Effect.readFile "id_rsa", Effect.parsePrivateKey, Effect.fatal "ssh: no key found"] ∧
    sshDialAuths (main cfgBoth badKeyEnv []) = [] :=
  ⟨by decide,
   (invalid_key_exits_before_dial cfgBoth badKeyEnv [] (by decide)
      (fun _ _ => ⟨"ssh: no key found", rfl⟩)).1⟩

/-- C10: evaluation of `main` on flag values with a remote address and neither a key file
nor a password, all library calls succeeding: the process does not stop at the `switch`; it
makes the transport dial with an `Auth` slice holding the unset method, opens the stream,
binds the listener and accepts the first connection. -/
theorem C10_missing_auth_reaches_dial :
    cfgNoAuth.remoteAddrStr = "10.0.0.1:80" ∧ cfgNoAuth.password = "" ∧
    cfgNoAuth.keyfile = "" ∧
    sshDialAuths (main cfgNoAuth okEnv [Event.arrival (.ok (client 1)), Event.loopStep false,
      Event.loopStep false]) = [[AuthMethod.unset]] ∧
    listens (main cfgNoAuth okEnv [Event.arrival (.ok (client 1)), Event.loopStep false,
      Event.loopStep false]) = ["127.0.0.1:10080"] ∧
    accepted (main cfgNoAuth okEnv [Event.arrival (.ok (client 1)), Event.loopStep false,
      Event.loopStep false]) = [client 1] ∧
    endsProcess (main cfgNoAuth okEnv [Event.arrival (.ok (client 1)), Event.loopStep false,
      Event.loopStep false]) = false := by
  decide

/-! ## Streams and forwarders (lines 98-106 and 124-126) -/

theorem beforeListen_append_of_nil (a b : List Effect) (ha : listens a = []) :
    beforeListen (a ++ b) = a ++ beforeListen b := by
  induction a with
  | nil => rfl
  | cons e t ih =>
    cases e
    case listenTCP addr => exact absurd ha (List.cons_ne_nil _ _)
    all_goals
      have h1 : listens t = [] := ha
      change _ :: beforeListen (t ++ b) = _
      rw [ih h1]
      rfl

theorem beforeListen_append_of_ne (a b : List Effect) (ha : listens a ≠ []) :
    beforeListen (a ++ b) = beforeListen a := by
  induction a with
  | nil => exact absurd rfl ha
  | cons e t ih =>
    cases e
    case listenTCP addr => rfl
    all_goals
      have h1 : listens t ≠ [] := ha
      change _ :: beforeListen (t ++ b) = _ :: beforeListen t
      rw [ih h1]

theorem chooseAuth_listens (cfg : Config) (env : Env) : listens (chooseAuth cfg env).1 = [] := by
  unfold chooseAuth
  split_ifs with h1 h2
  · rcases hr : env.readFile cfg.keyfile with m | b
    · simp [listens]
    · rcases hp : env.parsePrivateKey b with m | sign <;> simp [hp, listens]
  · simp [listens]
  · simp [listens]

/-- The stream of lines 95-106: when `net.ListenTCP` is called the one `DialTCP` has been made
before it; when startup goes through, the stream held is the result of that `DialTCP`, made
on the session held, to the resolved remote address. -/
theorem connect_stream (cfg : Config) (env : Env) (auth : AuthMethod) :
    (listens (connect cfg env auth).1 ≠ [] →
      tunnelDials (beforeListen (connect cfg env auth).1) = tunnelDials (connect cfg env auth).1 ∧
      (tunnelDials (connect cfg env auth).1).length = 1) ∧
    (∀ h, (connect cfg env auth).2 = some h →
      ∃ remote, env.resolveTCPAddr cfg.remoteAddrStr = .ok remote ∧
        env.dialTCP h.sshConn remote = .ok h.sshFwdConn ∧
        tunnelDials (connect cfg env auth).1 = [remote]) := by
  unfold connect
  rcases h1 : env.resolveTCPAddr cfg.sshAddrStr with m | sshAddr
  · simp [tunnelDials, listens, beforeListen]
  rcases h2 : env.sshDial sshAddr { user := cfg.user, auth := [auth] } with m | sshConn
  · simp [h2, tunnelDials, listens, beforeListen]
  rcases h3 : env.resolveTCPAddr cfg.remoteAddrStr with m | remoteAddr
  · simp [h2, h3, tunnelDials, listens, beforeListen]
  rcases h4 : env.dialTCP sshConn remoteAddr with m | sshFwdConn
  · simp [h2, h3, h4, tunnelDials, listens, beforeListen]
  rcases h5 : env.resolveTCPAddr cfg.localAddrStr with m | localAddr
  · simp [h2, h3, h4, h5, tunnelDials, listens, beforeListen]
  rcases h6 : env.listenTCP localAddr with m | listener
  · simp [h2, h3, h4, h5, h6, tunnelDials, listens, beforeListen]
  · simp only [h2, h3, h4, h5, h6, checked_ok, Stage.andThen_some, List.append_nil,
      List.cons_append, List.nil_append, Option.some.injEq]
    refine ⟨fun _ => ⟨by simp [tunnelDials, beforeListen], by simp [tunnelDials]⟩, ?_⟩
    intro h hh
    subst hh
    exact ⟨remoteAddr, rfl, h4, by simp [tunnelDials]⟩

theorem startup_stream (cfg : Config) (env : Env) :
    (listens (startup cfg env).1 ≠ [] →
      tunnelDials (beforeListen (startup cfg env).1) = tunnelDials (startup cfg env).1 ∧
      (tunnelDials (startup cfg env).1).length = 1) ∧
    (∀ h, (startup cfg env).2 = some h →
      ∃ remote, env.resolveTCPAddr cfg.remoteAddrStr = .ok remote ∧
        env.dialTCP h.sshConn remote = .ok h.sshFwdConn ∧
        tunnelDials (startup cfg env).1 = [remote]) := by
  unfold startup
  split_ifs with hr
  · simp [listens]
  · have hl := chooseAuth_listens cfg env
    have hd := (chooseAuth_facts cfg env).2.1
    rcases hc : chooseAuth cfg env with ⟨t, _ | auth⟩
    · rw [hc] at hl
      simp only [Stage.andThen_some, Stage.andThen_none, List.append_nil]
      refine ⟨fun hne => ?_, by simp⟩
      rw [listens_append, hl] at hne
      exact absurd rfl hne
    · rw [hc] at hl hd
      obtain ⟨c1, c2⟩ := connect_stream cfg env auth
      simp only [Stage.andThen_some]
      have e1 : ∀ x : List Effect,
          tunnelDials ([Effect.log ("Listening: " ++ cfg.localAddrStr ++ "; SSH Host: " ++
            cfg.sshAddrStr ++ "; Forwarding: " ++ cfg.remoteAddrStr ++ "\n\n")] ++ (t ++ x)) =
          tunnelDials x := by
        intro x
        rw [tunnelDials_append, tunnelDials_append, hd]
        rfl
      constructor
      · intro hne
        rw [listens_append, listens_append, hl] at hne
        have hne' : listens (connect cfg env auth).1 ≠ [] := by simpa [listens] using hne
        rw [beforeListen_append_of_nil [Effect.log _] _ rfl, beforeListen_append_of_nil _ _ hl, e1, e1]
        exact c1 hne'
      · intro h hh
        obtain ⟨remote, r1, r2, r3⟩ := c2 h hh
        exact ⟨remote, r1, r2, by rw [e1, r3]⟩

theorem main_listens (cfg : Config) (env : Env) (sched : List Event) :
    listens (main cfg env sched) = listens (startup cfg env).1 := by
  rcases hs : (startup cfg env).2 with _ | h
  · rw [main_of_startup_none cfg env sched hs]
  · rw [main_of_startup_some cfg env sched h hs, listens_append,
      (run_init_inv sched h).dials.2.2, List.append_nil]

/-- C4, as the code has it.  A run opens at most one logical stream, however many
connections it accepts.  A run that gets through startup, and so every run that accepts a
connection, opens exactly one: by the `DialTCP` of line 98, on the tunnel session, to the
resolved remote address, and before `net.ListenTCP` is called (line 106).  A run that fails
during startup accepts nothing and spawns nothing.  Every accepted connection gets a
forwarder of its own, spawned in the order of acceptance, and all of these forwarders are
bound to that one stream `sshFwdConn`. -/
theorem C4_one_shared_stream (cfg : Config) (env : Env) (sched : List Event) :
    (tunnelDials (main cfg env sched)).length ≤ 1 ∧
    (∀ h, (startup cfg env).2 = some h →
      ∃ remote, env.resolveTCPAddr cfg.remoteAddrStr = .ok remote ∧
        env.dialTCP h.sshConn remote = .ok h.sshFwdConn ∧
        tunnelDials (main cfg env sched) = [remote]) ∧
    (listens (main cfg env sched) ≠ [] →
      tunnelDials (beforeListen (main cfg env sched)) = tunnelDials (main cfg env sched) ∧
      (tunnelDials (main cfg env sched)).length = 1) ∧
    ((startup cfg env).2 = none →
      accepted (main cfg env sched) = [] ∧ forwards (main cfg env sched) = []) ∧
    (accepted (main cfg env sched) ≠ [] → (tunnelDials (main cfg env sched)).length = 1) ∧
    (forwards (main cfg env sched)).map Prod.fst = accepted (main cfg env sched) ∧
    (∀ x ∈ forwards (main cfg env sched), ∀ y ∈ forwards (main cfg env sched), x.2 = y.2) ∧
    (∀ h, (startup cfg env).2 = some h →
      forwards (main cfg env sched) =
        (accepted (main cfg env sched)).map (fun c => (c, h.sshFwdConn))) := by
  have hf := startup_facts cfg env
  obtain ⟨s1, s2⟩ := startup_stream cfg env
  have hord : listens (main cfg env sched) ≠ [] →
      tunnelDials (beforeListen (main cfg env sched)) = tunnelDials (main cfg env sched) ∧
      (tunnelDials (main cfg env sched)).length = 1 := by
    intro hne
    rw [main_listens] at hne
    rw [main_tunnelDials]
    rcases hs : (startup cfg env).2 with _ | h
    · rw [main_of_startup_none cfg env sched hs]
      exact s1 hne
    · rw [main_of_startup_some cfg env sched h hs, beforeListen_append_of_ne _ _ hne]
      exact s1 hne
  rw [main_tunnelDials] at hord ⊢
  rcases hs : (startup cfg env).2 with _ | h
  · obtain ⟨h1, h2⟩ := main_accepted_none cfg env sched hs
    rw [h1, h2]
    exact ⟨hf.1, by simp, hord, by simp, by simp, by simp, by simp, by simp⟩
  · obtain ⟨_, h2⟩ := main_accepted_some cfg env sched h hs
    refine ⟨hf.1, ?_, hord, by simp, fun _ => (hf.2.2 (by simp [hs])).2, ?_, ?_, ?_⟩
    · intro h' hh'
      cases hh'
      exact s2 h hs
    · rw [h2, List.map_map]
      exact List.map_id _
    · intro x hx y hy
      rw [h2] at hx hy
      simp only [List.mem_map] at hx hy
      obtain ⟨_, _, rfl⟩ := hx
      obtain ⟨_, _, rfl⟩ := hy
      rfl
    · intro h' hh'
      cases hh'
      exact h2

theorem C4_one_shared_stream_witness :
    (startup cfgPwd okEnv).2 = some okHandles ∧
    tunnelDials (main cfgPwd okEnv [Event.arrival (.ok (client 1)), Event.loopStep false,
      Event.loopStep false]) = ["10.0.0.1:80"] ∧
    forwards (main cfgPwd okEnv [Event.arrival (.ok (client 1)), Event.loopStep false,
      Event.loopStep false]) = [(client 1, okHandles.sshFwdConn)] :=
  ⟨by decide,
   (by
    obtain ⟨remote, h1, _, h3⟩ :=
      (C4_one_shared_stream cfgPwd okEnv [Event.arrival (.ok (client 1)),
        Event.loopStep false, Event.loopStep false]).2.1 okHandles (by decide)
    have : remote = "10.0.0.1:80" := by
      have h1' : (Except.ok "10.0.0.1:80" : Except String String) = Except.ok remote := h1
      injection h1' with h1''
      exact h1''.symm
    rw [h3, this]),
   ((C4_one_shared_stream cfgPwd okEnv [Event.arrival (.ok (client 1)), Event.loopStep false,
      Event.loopStep false]).2.2.2.2.2.2.2 okHandles (by decide)).trans (by decide)⟩

/-- C4, counterexample: a run that accepts two distinct connections opens one logical
stream, not two, and binds both forwarders to it. -/
theorem C4_two_clients_one_stream :
    accepted (main cfgPwd okEnv [Event.arrival (.ok (client 1)), Event.arrival (.ok (client 2)),
      Event.loopStep false, Event.loopStep false, Event.loopStep false, Event.loopStep false])
      = [client 1, client 2] ∧
    client 1 ≠ client 2 ∧
    tunnelDials (main cfgPwd okEnv [Event.arrival (.ok (client 1)),
      Event.arrival (.ok (client 2)), Event.loopStep false, Event.loopStep false,
      Event.loopStep false, Event.loopStep false]) = ["10.0.0.1:80"] ∧
    forwards (main cfgPwd okEnv [Event.arrival (.ok (client 1)), Event.arrival (.ok (client 2)),
      Event.loopStep false, Event.loopStep false, Event.loopStep false, Event.loopStep false])
      = [(client 1, okHandles.sshFwdConn), (client 2, okHandles.sshFwdConn)] := by
  decide

/-! ## The forwarder (lines 41-59) -/

theorem closedBy_cases (h : Handles) (m : MainLoc) :
    closedBy h m = [] ∨
    (m.closedSig = true ∧
      (closedBy h m = [Res.conn h.sshFwdConn] ∨
       closedBy h m = [Res.conn h.sshFwdConn, Res.sshConn h.sshConn])) := by
  cases m
  · exact Or.inl rfl
  · exact Or.inl rfl
  · exact Or.inl rfl
  · exact Or.inr ⟨rfl, Or.inl rfl⟩
  · exact Or.inr ⟨rfl, Or.inr rfl⟩

theorem startup_no_exit (cfg : Config) (env : Env) (c : Nat) :
    Effect.exit c ∉ (startup cfg env).1 := by
  intro hc
  have := startup_effects cfg env _ hc
  simp [startupEffect] at this

/-- C3, as the code has it: `forward` closes neither `orgConn` nor `sshFwdConn`, whichever
way its two copies end (clean end-of-stream or error, in either direction).  In the whole
program a connection is closed at one place only: once `main` has received from `sig` and
closed it, its return runs the deferred calls, which close the shared logical stream and
then the tunnel session; when the process exits through the end of `main`, both have been
closed and the exit is its last effect.  The accepted client connections are closed by no
statement. -/
theorem C3_forward_closes_nothing (orgConn sshFwdConn : Conn)
    (toLocalErr toRemoteErr : Option String) (cfg : Config) (env : Env) (sched : List Event) :
    closes (forward orgConn sshFwdConn toLocalErr toRemoteErr).remoteToLocal = [] ∧
    closes (forward orgConn sshFwdConn toLocalErr toRemoteErr).localToRemote = [] ∧
    (closes (main cfg env sched) = [] ∨
      ∃ h, (startup cfg env).2 = some h ∧ Effect.closeSig ∈ main cfg env sched ∧
        (closes (main cfg env sched) = [Res.conn h.sshFwdConn] ∨
         closes (main cfg env sched) = [Res.conn h.sshFwdConn, Res.sshConn h.sshConn])) ∧
    (∀ c, Effect.exit c ∈ main cfg env sched →
      ∃ h, (startup cfg env).2 = some h ∧
        closes (main cfg env sched) = [Res.conn h.sshFwdConn, Res.sshConn h.sshConn] ∧
        (main cfg env sched).getLast? = some (Effect.exit 0)) := by
  refine ⟨?_, ?_, ?_, ?_⟩
  · cases toLocalErr <;> simp [forward, closes]
  · cases toRemoteErr <;> simp [forward, closes]
  · rcases hs : (startup cfg env).2 with _ | h
    · left
      rw [main_of_startup_none cfg env sched hs]
      exact (startup_quiet cfg env).2.2
    · rw [main_closes cfg env sched h hs]
      rcases closedBy_cases h (run sched (Proc.init h)).mainLoc with h0 | ⟨hc, h1⟩
      · exact Or.inl h0
      · right
        refine ⟨h, rfl, ?_, h1⟩
        rw [main_of_startup_some cfg env sched h hs]
        exact List.mem_append_right _ ((run_init_inv sched h).sigc hc)
  · intro c hc
    rcases hs : (startup cfg env).2 with _ | h
    · rw [main_of_startup_none cfg env sched hs] at hc
      exact absurd hc (startup_no_exit cfg env c)
    · rw [main_of_startup_some cfg env sched h hs, List.mem_append] at hc
      rcases hc with hc | hc
      · exact absurd hc (startup_no_exit cfg env c)
      · refine ⟨h, rfl, ?_, ?_⟩
        · rw [main_closes cfg env sched h hs, ((run_init_inv sched h).exit0 c hc).2]
          rfl
        · have hl := (run_init_inv sched h).last c hc
          rw [main_of_startup_some cfg env sched h hs]
          rw [List.getLast?_eq_some_iff] at hl ⊢
          obtain ⟨ys, hys⟩ := hl
          exact ⟨(startup cfg env).1 ++ ys, by rw [hys, List.append_assoc]⟩

/-- C3, counterexample: on each of its exit paths `forward` ends with neither the client
connection nor the logical stream closed. -/
theorem C3_forward_leaves_both_open :
    forward (client 1) okHandles.sshFwdConn none none =
      { remoteToLocal := [Effect.copy (client 1) okHandles.sshFwdConn,
                          Effect.log "Data sent to local host: 127.0.0.1:10080"],
        localToRemote := [Effect.copy okHandles.sshFwdConn (client 1),
                          Effect.log "Data sent to remote host: 10.0.0.1:80"] } ∧
    Res.conn (client 1) ∉
      closes (forward (client 1) okHandles.sshFwdConn none none).localToRemote ++
      closes (forward (client 1) okHandles.sshFwdConn none none).remoteToLocal ∧
    Res.conn okHandles.sshFwdConn ∉
      closes (forward (client 1) okHandles.sshFwdConn none none).localToRemote ++
      closes (forward (client 1) okHandles.sshFwdConn none none).remoteToLocal ∧
    closes (forward (client 1) okHandles.sshFwdConn (some "reset") none).remoteToLocal = [] ∧
    closes (forward (client 1) okHandles.sshFwdConn none (some "reset")).localToRemote = [] := by
  decide

/-- C5: in every call of `forward`, each direction sends on `errCh` exactly when its copy
returned an error, and then sends one message, tagged with the direction and the cause: the
copy from the client connection to the logical stream sends
"io.Copy failed (local -> remote): <cause>\n", the copy from the logical stream to the
client connection sends "io.Copy failed (remote -> local): <cause>\n".  A direction that
ends with a clean end-of-stream sends nothing, and no path of `forward` ends the process. -/
theorem C5_error_reporting (orgConn sshFwdConn : Conn) (toLocalErr toRemoteErr : Option String) :
    (forward orgConn sshFwdConn toLocalErr toRemoteErr).localToRemote.head? =
      some (Effect.copy sshFwdConn orgConn) ∧
    (forward orgConn sshFwdConn toLocalErr toRemoteErr).remoteToLocal.head? =
      some (Effect.copy orgConn sshFwdConn) ∧
    sentErrs (forward orgConn sshFwdConn toLocalErr toRemoteErr).localToRemote =
      (match toRemoteErr with
       | some cause => ["io.Copy failed (local -> remote): " ++ cause ++ "\n"]
       | none => []) ∧
    sentErrs (forward orgConn sshFwdConn toLocalErr toRemoteErr).remoteToLocal =
      (match toLocalErr with
       | some cause => ["io.Copy failed (remote -> local): " ++ cause ++ "\n"]
       | none => []) ∧
    (sentErrs (forward orgConn sshFwdConn toLocalErr toRemoteErr).localToRemote ≠ [] ↔
      toRemoteErr ≠ none) ∧
    (sentErrs (forward orgConn sshFwdConn toLocalErr toRemoteErr).remoteToLocal ≠ [] ↔
      toLocalErr ≠ none) ∧
    endsProcess (forward orgConn sshFwdConn toLocalErr toRemoteErr).localToRemote = false ∧
    endsProcess (forward orgConn sshFwdConn toLocalErr toRemoteErr).remoteToLocal = false := by
  cases toLocalErr <;> cases toRemoteErr <;> simp [forward, sentErrs, endsProcess]

/-! ## The bytes relayed (lines 43, 52 and 126) -/

theorem copyStep_faithful (p q : List Byte) (i : Nat) (d : Dir) (r : Relay)
    (hr : Faithful p q r) : Faithful p q (copyStep i d r) := by
  obtain ⟨c, hc, h1, h2⟩ := hr
  unfold copyStep
  rcases i with _ | i
  · simp only [hc, List.getElem?_cons_zero]
    cases d with
    | localToRemote =>
      rcases hu : c.unread with _ | ⟨chunk, rest⟩
      · exact ⟨c, hc, h1, h2⟩
      · refine ⟨{ c with unread := rest }, by simp, ?_, h2⟩
        rw [hu, List.flatten_cons] at h1
        simpa [List.append_assoc] using h1
    | remoteToLocal =>
      rcases hu : r.fromRemote with _ | ⟨chunk, rest⟩
      · exact ⟨c, hc, h1, h2⟩
      · refine ⟨{ c with received := c.received ++ chunk }, by simp, h1, ?_⟩
        rw [hu, List.flatten_cons] at h2
        simpa [List.append_assoc] using h2
  · simp only [hc, List.getElem?_cons_succ, List.getElem?_nil]
    exact ⟨c, hc, h1, h2⟩

theorem relay_nil (r : Relay) : relay [] r = r := rfl

theorem relay_cons (s : Nat × Dir) (sched : List (Nat × Dir)) (r : Relay) :
    relay (s :: sched) r = relay sched (copyStep s.1 s.2 r) := rfl

theorem relay_append (s₁ s₂ : List (Nat × Dir)) (r : Relay) :
    relay (s₁ ++ s₂) r = relay s₂ (relay s₁ r) := by
  simp [relay, List.foldl_append]

theorem relay_faithful (p q : List Byte) (sched : List (Nat × Dir)) (r : Relay)
    (hr : Faithful p q r) : Faithful p q (relay sched r) := by
  induction sched generalizing r with
  | nil => exact hr
  | cons s sched ih => exact ih _ (copyStep_faithful p q s.1 s.2 r hr)

/-- The copy from the only client run until its source is exhausted. -/
theorem relay_up (p : List (List Byte)) (rcv t : List Byte) (q : List (List Byte)) :
    relay (List.replicate p.length (0, Dir.localToRemote))
        { clients := [{ unread := p, received := rcv }], toRemote := t, fromRemote := q } =
      { clients := [{ unread := [], received := rcv }], toRemote := t ++ p.flatten,
        fromRemote := q } := by
  induction p generalizing t with
  | nil => simp [relay_nil]
  | cons chunk rest ih =>
    rw [List.length_cons, List.replicate_succ, relay_cons]
    simp only [copyStep, List.getElem?_cons_zero, List.set_cons_zero]
    rw [ih]
    simp [List.append_assoc]

/-- The copy to the only client run until the stream has nothing left. -/
theorem relay_down (q : List (List Byte)) (u : List (List Byte)) (rcv t : List Byte) :
    relay (List.replicate q.length (0, Dir.remoteToLocal))
        { clients := [{ unread := u, received := rcv }], toRemote := t, fromRemote := q } =
      { clients := [{ unread := u, received := rcv ++ q.flatten }], toRemote := t,
        fromRemote := [] } := by
  induction q generalizing rcv with
  | nil => simp [relay_nil]
  | cons chunk rest ih =>
    rw [List.length_cons, List.replicate_succ, relay_cons]
    simp only [copyStep, List.getElem?_cons_zero, List.set_cons_zero]
    rw [ih]
    simp [List.append_assoc]

/-- C2, as the code has it: when one client connection is forwarded over the logical stream,
error-free copies relay transparently in both directions.  For chunks `p` written by the
client and chunks `q` produced by the remote side, after any interleaving of copy rounds the
bytes that reached the stream, followed by the ones still unread, are exactly those of `p`,
and likewise for `q` towards the client; once both copies have nothing left to read the
stream has received exactly the bytes of `p` and the client exactly those of `q`, in order;
and running each copy for as many rounds as there are chunks gets there. -/
theorem C2_single_client_relay (p q : List (List Byte)) (sched : List (Nat × Dir)) :
    Faithful p.flatten q.flatten (relay sched (Relay.start [p] q)) ∧
    ((relay sched (Relay.start [p] q)).drained = true →
      relay sched (Relay.start [p] q) =
        { clients := [{ unread := [], received := q.flatten }], toRemote := p.flatten,
          fromRemote := [] }) ∧
    relay (drainSchedule 0 p.length q.length) (Relay.start [p] q) =
      { clients := [{ unread := [], received := q.flatten }], toRemote := p.flatten,
        fromRemote := [] } := by
  have h0 : Faithful p.flatten q.flatten (Relay.start [p] q) :=
    ⟨{ unread := p, received := [] }, rfl, by simp [Relay.start], by simp [Relay.start]⟩
  have hf := relay_faithful p.flatten q.flatten sched _ h0
  refine ⟨hf, ?_, ?_⟩
  · intro hd
    obtain ⟨c, hc, h1, h2⟩ := hf
    rcases hr : relay sched (Relay.start [p] q) with ⟨cl, tr, fr⟩
    rw [hr] at hc h1 h2 hd
    simp only at hc h1 h2
    subst hc
    simp only [Relay.drained, Bool.and_eq_true, List.isEmpty_iff, List.all_cons, List.all_nil,
      Bool.and_true] at hd
    obtain ⟨hd1, hd2⟩ := hd
    rcases c with ⟨u, rc⟩
    simp only at hd2 h1 h2
    subst hd1 hd2
    simp only [List.flatten_nil, List.append_nil] at h1 h2
    rw [h1, h2]
  · unfold drainSchedule Relay.start
    rw [relay_append]
    simp only [List.map_cons, List.map_nil]
    rw [relay_up, relay_down]
    simp

/-- C2, counterexample: two accepted clients are forwarded over the one stream.  Client 0
writes the byte 1 and client 1 the byte 2; the remote side answers with the byte 9.  After
error-free copies have moved everything, the stream has received the bytes of both clients, not
exactly those of client 0, and the answer has gone to client 1 only. -/
theorem C2_two_clients_share_the_stream :
    relay [(0, Dir.localToRemote), (1, Dir.localToRemote), (1, Dir.remoteToLocal)]
        (Relay.start [[[1]], [[2]]] [[9]]) =
      { clients := [{ unread := [], received := [] }, { unread := [], received := [9] }],
        toRemote := [1, 2], fromRemote := [] } ∧
    (relay [(0, Dir.localToRemote), (1, Dir.localToRemote), (1, Dir.remoteToLocal)]
        (Relay.start [[[1]], [[2]]] [[9]])).drained = true ∧
    (relay [(0, Dir.localToRemote), (1, Dir.localToRemote), (1, Dir.remoteToLocal)]
        (Relay.start [[[1]], [[2]]] [[9]])).toRemote ≠ [1] ∧
    ((relay [(0, Dir.localToRemote), (1, Dir.localToRemote), (1, Dir.remoteToLocal)]
        (Relay.start [[[1]], [[2]]] [[9]])).clients.map Client.received)[0]? ≠ some [9] := by
  decide

theorem C2_single_client_relay_witness :
    (relay [(0, Dir.remoteToLocal), (0, Dir.localToRemote), (0, Dir.localToRemote)]
      (Relay.start [[[80, 73], [78, 71]]] [[79, 75]])).drained = true ∧
    relay [(0, Dir.remoteToLocal), (0, Dir.localToRemote), (0, Dir.localToRemote)]
        (Relay.start [[[80, 73], [78, 71]]] [[79, 75]]) =
      { clients := [{ unread := [], received := [79, 75] }], toRemote := [80, 73, 78, 71],
        fromRemote := [] } :=
  ⟨by decide,
   (C2_single_client_relay [[80, 73], [78, 71]] [[79, 75]]
      [(0, Dir.remoteToLocal), (0, Dir.localToRemote), (0, Dir.localToRemote)]).2.1
      (by decide)⟩

theorem copyStep_interleaved (i : Nat) (p q : List Byte) (j : Nat) (dir : Dir) (r : Relay)
    (hr : Interleaved i p q r) : Interleaved i p q (copyStep j dir r) := by
  obtain ⟨c, d, k, hc, h1, h2, h3, h4⟩ := hr
  unfold copyStep
  rcases hj : r.clients[j]? with _ | cj
  · exact ⟨c, d, k, hc, h1, h2, h3, h4⟩
  · have hlt : j < r.clients.length := (List.getElem?_eq_some.mp hj).1
    cases dir with
    | localToRemote =>
      dsimp only
      rcases hu : cj.unread with _ | ⟨chunk, rest⟩
      · exact ⟨c, d, k, hc, h1, h2, h3, h4⟩
      · dsimp only
        by_cases hji : j = i
        · subst hji
          rw [hj] at hc
          have hcc : cj = c := Option.some.inj hc
          subst hcc
          refine ⟨{ cj with unread := rest }, d ++ chunk, k, ?_, ?_, ?_, h3, h4⟩
          · simp [List.getElem?_set_self hlt]
          · rw [hu, List.flatten_cons] at h1
            simpa [List.append_assoc] using h1
          · exact h2.append (List.Sublist.refl chunk)
        · refine ⟨c, d, k, ?_, h1, ?_, h3, h4⟩
          · simp [List.getElem?_set_ne hji, hc]
          · exact h2.trans (List.sublist_append_left _ _)
    | remoteToLocal =>
      dsimp only
      rcases hu : r.fromRemote with _ | ⟨chunk, rest⟩
      · exact ⟨c, d, k, hc, h1, h2, h3, h4⟩
      · dsimp only
        rw [hu, List.flatten_cons] at h3
        by_cases hji : j = i
        · subst hji
          rw [hj] at hc
          have hcc : cj = c := Option.some.inj hc
          subst hcc
          refine ⟨{ cj with received := cj.received ++ chunk }, d, k ++ chunk, ?_, h1, h2, ?_, ?_⟩
          · simp [List.getElem?_set_self hlt]
          · simpa [List.append_assoc] using h3
          · exact h4.append (List.Sublist.refl chunk)
        · refine ⟨c, d, k ++ chunk, ?_, h1, h2, ?_, ?_⟩
          · simp [List.getElem?_set_ne hji, hc]
          · simpa [List.append_assoc] using h3
          · exact h4.trans (List.sublist_append_left _ _)

/-- Several clients on the shared stream: after any interleaving of error-free copy rounds,
the bytes of each client have reached the stream in order and unmodified, as a subsequence
of everything the stream received, and each client has received, in order, a subsequence of
what the remote side produced. -/
theorem shared_stream_interleaves (ps : List (List (List Byte))) (q : List (List Byte))
    (sched : List (Nat × Dir)) (i : Nat) (p : List (List Byte)) (hi : ps[i]? = some p) :
    Interleaved i p.flatten q.flatten (relay sched (Relay.start ps q)) := by
  have h0 : Interleaved i p.flatten q.flatten (Relay.start ps q) := by
    refine ⟨{ unread := p, received := [] }, [], [], ?_, by simp, by simp [Relay.start],
      by simp [Relay.start], by simp⟩
    simp [Relay.start, hi]
  generalize Relay.start ps q = r at h0
  induction sched generalizing r with
  | nil => exact h0
  | cons s sched ih => exact ih _ (copyStep_interleaved i _ _ s.1 s.2 r h0)

theorem shared_stream_interleaves_witness :
    Interleaved 0 [1] [9] (relay [(0, Dir.localToRemote), (1, Dir.localToRemote),
      (1, Dir.remoteToLocal)] (Relay.start [[[1]], [[2]]] [[9]])) :=
  shared_stream_interleaves [[[1]], [[2]]] [[9]] [(0, Dir.localToRemote),
    (1, Dir.localToRemote), (1, Dir.remoteToLocal)] 0 [[1]] (by decide)

/-! ## The accept loop under a pending trigger (lines 112-129) -/

theorem triggerPending_iff (p : Proc) :
    p.triggerPending = true ↔ p.mainLoc.closedSig = true ∨ p.errs ≠ [] := by
  unfold Proc.triggerPending
  cases p.errs <;> simp

theorem Kind.mainLoc_closedSig (k : Kind) (p : Proc) (hg : k.guard p)
    (h : p.mainLoc.closedSig = true) : (k.mainLoc p.mainLoc).closedSig = true := by
  cases k
  case interruptTaken =>
    have g : p.mainLoc = MainLoc.parked := hg
    rw [g] at h; cases h
  case handedOver =>
    have g : p.mainLoc = MainLoc.parked := hg.2
    rw [g] at h; cases h
  all_goals first | exact h | rfl

theorem nonempty_of_extends {a b : List String} (h : a <+: b) (ha : a ≠ []) : b ≠ [] := by
  rintro rfl
  exact ha (List.prefix_nil.mp h)

theorem trans_latched (p q : Proc) (hx : p.exited = false) (ht : Trans p q) (hl : Latched p) :
    Latched q ∧
    (accepted q.trace).length + slack q ≤ (accepted p.trace).length + slack p := by
  obtain ⟨k, hg, _, htr, hloc, hm, hq, he⟩ := ht
  have hpend : LeftSelect p ∨ p.mainLoc.closedSig = true ∨ p.errs ≠ [] := by
    rcases hl with h | h | h
    · rw [hx] at h; cases h
    · exact Or.inl h
    · exact Or.inr ((triggerPending_iff p).mp h)
  have hkeep : p.mainLoc.closedSig = true → q.mainLoc.closedSig = true := by
    intro h
    rw [hm]
    exact Kind.mainLoc_closedSig k p hg h
  rw [htr, accepted_append, List.length_append]
  unfold Latched LeftSelect slack
  rw [triggerPending_iff, hloc, hq, hx]
  unfold LeftSelect at hpend
  cases k
  case tookDefault =>
    obtain ⟨g1, g2, g3⟩ := hg
    rcases hpend with (h | h) | h | h
    · rw [g1] at h; cases h
    · rw [g1] at h; cases h
    · rw [g3] at h; cases h
    · exact absurd g2 h
  case tookErr e =>
    exact ⟨Or.inr (Or.inl (Or.inl rfl)), by simp [Kind.loc, Kind.added, accepted, Kind.final]⟩
  case tookSig =>
    exact ⟨Or.inr (Or.inl (Or.inl rfl)), by simp [Kind.loc, Kind.added, accepted, Kind.final]⟩
  case handedOver =>
    exact ⟨Or.inr (Or.inl (Or.inr rfl)), by simp [Kind.loc, Kind.added, accepted, Kind.final]⟩
  case panicked =>
    exact ⟨Or.inl rfl, by simp [Kind.added, accepted, Kind.final]⟩
  case acceptFailed e =>
    exact ⟨Or.inl rfl, by simp [Kind.added, accepted, Kind.final]⟩
  case exitedClean =>
    exact ⟨Or.inl rfl, by simp [Kind.added, accepted, Kind.final]⟩
  case acceptedConn c =>
    have g : p.loc = Loc.inAccept := hg
    refine ⟨Or.inr (Or.inr ?_), by simp [Kind.loc, Kind.added, accepted, Kind.final, g]⟩
    rcases hpend with (h | h) | h | h
    · rw [g] at h; cases h
    · rw [g] at h; cases h
    · exact Or.inl (hkeep h)
    · have he' : q.errs = p.errs := he
      exact Or.inr (by rw [he']; exact h)
  case quiet =>
    have he' : p.errs <+: q.errs := he
    refine ⟨Or.inr ?_, by simp [Kind.loc, Kind.added, accepted, Kind.final]⟩
    rcases hpend with h | h | h
    · exact Or.inl h
    · exact Or.inr (Or.inl (hkeep h))
    · exact Or.inr (Or.inr (nonempty_of_extends he' h))
  all_goals
    have he' : q.errs = p.errs := he
    refine ⟨Or.inr ?_, by simp [Kind.loc, Kind.added, accepted, Kind.final]⟩
    rcases hpend with h | h | h
    · exact Or.inl h
    · exact Or.inr (Or.inl (hkeep h))
    · exact Or.inr (Or.inr (by rw [he']; exact h))

theorem step_latched (ev : Event) (p : Proc) (hl : Latched p) :
    Latched (step ev p) ∧
    (accepted (step ev p).trace).length + slack (step ev p) ≤
      (accepted p.trace).length + slack p := by
  rcases hx : p.exited with _ | _
  · exact trans_latched p _ hx (step_trans ev p hx) hl
  · rw [step_exited ev p hx]
    exact ⟨hl, le_refl _⟩

theorem run_latched (sched : List Event) (p : Proc) (hl : Latched p) :
    (accepted (run sched p).trace).length + slack (run sched p) ≤
      (accepted p.trace).length + slack p := by
  induction sched generalizing p with
  | nil => exact le_refl _
  | cons ev s ih =>
    obtain ⟨h1, h2⟩ := step_latched ev p hl
    exact le_trans (ih (step ev p) h1) h2

theorem run_trace_extends (sched : List Event) (p : Proc) :
    ∃ t, (run sched p).trace = p.trace ++ t := by
  induction sched generalizing p with
  | nil => exact ⟨[], by simp [run_nil]⟩
  | cons ev s ih =>
    obtain ⟨t₂, h₂⟩ := ih (step ev p)
    rcases hx : p.exited with _ | _
    · obtain ⟨k, _, _, h₁, _⟩ := step_trans ev p hx
      exact ⟨k.added p.h ++ t₂, by rw [run_cons, h₂, h₁, List.append_assoc]⟩
    · rw [step_exited ev p hx] at h₂
      exact ⟨t₂, by rw [run_cons, step_exited ev p hx, h₂]⟩

/-- An interrupt never makes a receive case of the `select` ready. -/
theorem interrupt_not_pending (p : Proc) :
    (step Event.interrupt p).triggerPending = p.triggerPending := by
  rcases hx : p.exited with _ | _
  · unfold step
    rw [if_neg (by simp [hx])]
    simp only [interruptStep]
    rcases hm : p.mainLoc with _ | _ | _ | _ | _ <;>
      simp [Proc.triggerPending, panicStep, hm, MainLoc.closedSig]
  · rw [step_exited _ p hx]

/-- The accept loop is at its `select` with nothing to receive and nothing queued. -/
theorem serve_one (c : Conn) (p : Proc) (hx : p.exited = false) (hl : p.loc = Loc.atSelect)
    (he : p.errs = []) (hc : p.mainLoc.closedSig = false) (hb : p.backlog = []) :
    (run [Event.arrival (.ok c), Event.loopStep false, Event.loopStep false] p).exited = false ∧
    (run [Event.arrival (.ok c), Event.loopStep false, Event.loopStep false] p).loc =
      Loc.atSelect ∧
    (run [Event.arrival (.ok c), Event.loopStep false, Event.loopStep false] p).errs = [] ∧
    (run [Event.arrival (.ok c), Event.loopStep false, Event.loopStep false] p).mainLoc =
      p.mainLoc ∧
    (run [Event.arrival (.ok c), Event.loopStep false, Event.loopStep false] p).backlog = [] ∧
    (run [Event.arrival (.ok c), Event.loopStep false, Event.loopStep false] p).trace =
      p.trace ++ [Effect.accept c, Effect.goForward c p.h.sshFwdConn] := by
  obtain ⟨h, loc, mainLoc, exited, errs, backlog, fwds, trace⟩ := p
  simp only at hx hl he hc hb
  subst hx hl he hb
  simp [run, step, selectStep, acceptStep, hc]

theorem serve_all (cs : List Conn) (p : Proc) (hx : p.exited = false)
    (hl : p.loc = Loc.atSelect) (he : p.errs = []) (hc : p.mainLoc.closedSig = false)
    (hb : p.backlog = []) :
    accepted (run (serve cs) p).trace = accepted p.trace ++ cs ∧
    received (run (serve cs) p).trace = received p.trace ∧
    mainReceives (run (serve cs) p).trace = mainReceives p.trace ∧
    (run (serve cs) p).exited = false := by
  induction cs generalizing p with
  | nil => exact ⟨by simp [serve, run_nil], rfl, rfl, hx⟩
  | cons c cs ih =>
    obtain ⟨s1, s2, s3, s4, s5, s6⟩ := serve_one c p hx hl he hc hb
    have hrun : run (serve (c :: cs)) p =
        run (serve cs) (run [Event.arrival (.ok c), Event.loopStep false,
          Event.loopStep false] p) := rfl
    obtain ⟨i1, i2, i3, i4⟩ := ih _ s1 s2 s3 (by rw [s4]; exact hc) s5
    rw [hrun, i1, i2, i3, s6, accepted_append, received_append, mainReceives_append]
    exact ⟨by simp [accepted], by simp [received], by simp [mainReceives], i4⟩

theorem interrupt_parked (p : Proc) (hx : p.exited = false)
    (hm : p.mainLoc = MainLoc.parked) :
    (step Event.interrupt p).exited = false ∧ (step Event.interrupt p).loc = p.loc ∧
    (step Event.interrupt p).errs = p.errs ∧
    (step Event.interrupt p).mainLoc = MainLoc.received ∧
    (step Event.interrupt p).backlog = p.backlog ∧
    (step Event.interrupt p).trace = p.trace ++ [Effect.mainRecvSig] := by
  obtain ⟨h, loc, mainLoc, exited, errs, backlog, fwds, trace⟩ := p
  simp only at hx hm
  subst hx hm
  simp [step, interruptStep]

/-- C6, as the code has it.  (1) Take any execution of the accept loop and any point of it at
which a receive case of its `select` can proceed: a forwarder is blocked sending on `errCh`,
or `main` has closed `sig`.  From that point on the loop accepts at most one more
connection, whatever is queued at the listener; and it accepts none unless it had already
left the `select` through the `default` case and stood in `listener.Accept()` at that
point.  (2) An interrupt is no such point: it never makes a receive case of the `select`
ready.  (3) Take any point at which the loop is at its `select` with nothing to receive and
nothing queued, and `main` is parked in line 130.  After an interrupt at that point it is
`main` that has received it, the loop has received nothing more, and the loop accepts every
connection of any list of connections that then arrive. -/
theorem C6_accepts_after_trigger (h : Handles) (before after : List Event) (cs : List Conn) :
    ((run before (Proc.init h)).triggerPending = true →
      (accepted (run (before ++ after) (Proc.init h)).trace).length ≤
        (accepted (run before (Proc.init h)).trace).length + 1 ∧
      ((run before (Proc.init h)).loc ≠ Loc.inAccept →
        accepted (run (before ++ after) (Proc.init h)).trace =
          accepted (run before (Proc.init h)).trace)) ∧
    (run (before ++ [Event.interrupt]) (Proc.init h)).triggerPending =
      (run before (Proc.init h)).triggerPending ∧
    ((run before (Proc.init h)).exited = false →
      (run before (Proc.init h)).loc = Loc.atSelect →
      (run before (Proc.init h)).errs = [] →
      (run before (Proc.init h)).backlog = [] →
      (run before (Proc.init h)).mainLoc = MainLoc.parked →
      mainReceives (run (before ++ Event.interrupt :: serve cs) (Proc.init h)).trace =
        mainReceives (run before (Proc.init h)).trace ++ [Effect.mainRecvSig] ∧
      received (run (before ++ Event.interrupt :: serve cs) (Proc.init h)).trace =
        received (run before (Proc.init h)).trace ∧
      accepted (run (before ++ Event.interrupt :: serve cs) (Proc.init h)).trace =
        accepted (run before (Proc.init h)).trace ++ cs ∧
      (run (before ++ Event.interrupt :: serve cs) (Proc.init h)).exited = false) := by
  refine ⟨?_, ?_, ?_⟩
  · intro hp
    rw [run_append]
    have hl : Latched (run before (Proc.init h)) := Or.inr (Or.inr hp)
    have hb := run_latched after (run before (Proc.init h)) hl
    constructor
    · have hs : slack (run before (Proc.init h)) ≤ 1 := by
        unfold slack; split_ifs <;> simp
      omega
    · intro hloc
      have hs : slack (run before (Proc.init h)) = 0 := by
        simp [slack, hloc]
      obtain ⟨t, ht⟩ := run_trace_extends after (run before (Proc.init h))
      rw [ht, accepted_append] at hb ⊢
      rw [hs, List.length_append] at hb
      have : accepted t = [] := List.length_eq_zero.mp (by omega)
      rw [this, List.append_nil]
  · rw [run_append]
    exact interrupt_not_pending _
  · intro hx hl he hb hm
    obtain ⟨j1, j2, j3, j4, j5, j6⟩ := interrupt_parked _ hx hm
    have h0 : run (before ++ Event.interrupt :: serve cs) (Proc.init h) =
        run (serve cs) (step Event.interrupt (run before (Proc.init h))) := by
      rw [run_append, run_cons]
    obtain ⟨i1, i2, i3, i4⟩ :=
      serve_all cs (step Event.interrupt (run before (Proc.init h))) j1 (j2.trans hl)
        (j3.trans he) (by rw [j4]; rfl) (j5.trans hb)
    rw [h0, i1, i2, i3, j6, accepted_append, received_append, mainReceives_append]
    exact ⟨rfl, by simp [received], by simp [accepted], i4⟩

theorem C6_accepts_after_trigger_witness :
    (run [Event.arrival (.ok (client 1)), Event.loopStep false, Event.loopStep false,
      Event.copyReturns 0 Dir.localToRemote (some "broken pipe")]
      (Proc.init okHandles)).triggerPending = true ∧
    accepted (run ([Event.arrival (.ok (client 1)), Event.loopStep false, Event.loopStep false,
        Event.copyReturns 0 Dir.localToRemote (some "broken pipe")] ++ serve [client 2])
      (Proc.init okHandles)).trace = [client 1] :=
  ⟨by decide,
   ((C6_accepts_after_trigger okHandles
      [Event.arrival (.ok (client 1)), Event.loopStep false, Event.loopStep false,
       Event.copyReturns 0 Dir.localToRemote (some "broken pipe")]
      (serve [client 2]) []).1 (by decide)).2 (by decide)⟩

/-- C6, counterexample.  First run: client 1 is accepted and forwarded, the loop takes the
`default` case and stands in `listener.Accept()`; then the copy from client 1 fails and its
forwarder blocks on `errCh`: a trigger is pending, and still the next connection to arrive is
accepted and handed to a new forwarder before the `select` receives the error.  Second run:
an interrupt arrives while the loop is at its `select`; `main` receives it, the loop does
not, and the loop accepts the next two connections. -/
theorem C6_accept_after_pending_trigger :
    (run [Event.arrival (.ok (client 1)), Event.loopStep false, Event.loopStep false,
      Event.loopStep false, Event.copyReturns 0 Dir.localToRemote (some "broken pipe")]
      (Proc.init okHandles)).errs = ["io.Copy failed (local -> remote): broken pipe\n"] ∧
    accepted (run [Event.arrival (.ok (client 1)), Event.loopStep false, Event.loopStep false,
      Event.loopStep false, Event.copyReturns 0 Dir.localToRemote (some "broken pipe")]
      (Proc.init okHandles)).trace = [client 1] ∧
    (run ([Event.arrival (.ok (client 1)), Event.loopStep false, Event.loopStep false,
        Event.loopStep false, Event.copyReturns 0 Dir.localToRemote (some "broken pipe")] ++
        [Event.arrival (.ok (client 2)), Event.loopStep false, Event.loopStep false])
      (Proc.init okHandles)).trace =
      [Effect.accept (client 1), Effect.goForward (client 1) okHandles.sshFwdConn,
       Effect.accept (client 2), Effect.goForward (client 2) okHandles.sshFwdConn,
       Effect.recvErr "io.Copy failed (local -> remote): broken pipe\n",
       Effect.log "io.Copy failed (local -> remote): broken pipe\n"] ∧
    (run ([Event.interrupt] ++ serve [client 1, client 2]) (Proc.init okHandles)).trace =
      [Effect.mainRecvSig,
       Effect.accept (client 1), Effect.goForward (client 1) okHandles.sshFwdConn,
       Effect.accept (client 2), Effect.goForward (client 2) okHandles.sshFwdConn] := by
  decide

/-! ## Teardown (lines 92, 100, 124-125, 130-132) -/

/-- An interrupt while `main` is parked in line 130, followed by four moves of `main`. -/
theorem shutdown_by_interrupt (p : Proc) (hx : p.exited = false)
    (hm : p.mainLoc = MainLoc.parked) :
    (run [Event.interrupt, Event.mainStep, Event.mainStep, Event.mainStep, Event.mainStep]
      p).trace = p.trace ++ Effect.mainRecvSig :: teardown p.h ∧
    (run [Event.interrupt, Event.mainStep, Event.mainStep, Event.mainStep, Event.mainStep]
      p).exited = true := by
  obtain ⟨h, loc, mainLoc, exited, errs, backlog, fwds, trace⟩ := p
  simp only at hx hm
  subst hx hm
  simp [run, step, interruptStep, mainStep, teardown]

/-- An error at the head of `errCh` while the loop is at its `select` and `main` is parked:
two moves of the loop (lines 119-120, then line 121) and four moves of `main`. -/
theorem shutdown_by_error (p : Proc) (e : String) (rest : List String) (b₁ b₂ : Bool)
    (hx : p.exited = false) (hm : p.mainLoc = MainLoc.parked) (hl : p.loc = Loc.atSelect)
    (he : p.errs = e :: rest) :
    (run [Event.loopStep b₁, Event.loopStep b₂, Event.mainStep, Event.mainStep,
      Event.mainStep, Event.mainStep] p).trace =
      p.trace ++ [Effect.recvErr e, Effect.log e, Effect.sendSig, Effect.mainRecvSig] ++
        teardown p.h ∧
    (run [Event.loopStep b₁, Event.loopStep b₂, Event.mainStep, Event.mainStep,
      Event.mainStep, Event.mainStep] p).exited = true := by
  obtain ⟨h, loc, mainLoc, exited, errs, backlog, fwds, trace⟩ := p
  simp only at hx hm hl he
  subst hx hm hl he
  simp [run, step, selectStep, errCase, sendStep, mainStep, teardown, MainLoc.closedSig]

/-- An error returned by `listener.Accept()`: `checkErr` ends the process (line 125). -/
theorem shutdown_by_accept_error (p : Proc) (e : String) (rest : List (Except String Conn))
    (b : Bool) (hx : p.exited = false) (hl : p.loc = Loc.inAccept)
    (hb : p.backlog = .error e :: rest) :
    (run [Event.loopStep b] p).trace = p.trace ++ [Effect.fatal e] ∧
    (run [Event.loopStep b] p).exited = true := by
  obtain ⟨h, loc, mainLoc, exited, errs, backlog, fwds, trace⟩ := p
  simp only at hx hl hb
  subst hx hl hb
  simp [run, step, acceptStep]

/-- The send of line 117 or 121 after `close(sig)`: a panic ends the process. -/
theorem send_after_close (p : Proc) (b : Bool) (hx : p.exited = false)
    (hl : p.loc = Loc.atSend) (hc : p.mainLoc.closedSig = true) :
    (run [Event.loopStep b] p).trace =
      p.trace ++ [Effect.panic "send on closed channel"] ∧
    (run [Event.loopStep b] p).exited = true := by
  obtain ⟨h, loc, mainLoc, exited, errs, backlog, fwds, trace⟩ := p
  simp only at hx hl hc
  subst hx hl
  rcases mainLoc with _ | _ | _ | _ | _ <;>
    simp_all [run, step, sendStep, panicStep, MainLoc.closedSig]

/-- The send of line 117 or 121 after `main` has left line 130 and before `close(sig)`:
the loop is blocked. -/
theorem send_blocked (p : Proc) (b : Bool) (hx : p.exited = false) (hl : p.loc = Loc.atSend)
    (hm : p.mainLoc = MainLoc.received) : run [Event.loopStep b] p = p := by
  obtain ⟨h, loc, mainLoc, exited, errs, backlog, fwds, trace⟩ := p
  simp only at hx hl hm
  subst hx hl hm
  simp [run, step, sendStep]

/-- An interrupt after `close(sig)`: the send of `signal.Notify` panics. -/
theorem interrupt_after_close (p : Proc) (hx : p.exited = false)
    (hc : p.mainLoc.closedSig = true) :
    (run [Event.interrupt] p).trace = p.trace ++ [Effect.panic "send on closed channel"] ∧
    (run [Event.interrupt] p).exited = true := by
  obtain ⟨h, loc, mainLoc, exited, errs, backlog, fwds, trace⟩ := p
  simp only at hx hc
  subst hx
  rcases mainLoc with _ | _ | _ | _ | _ <;>
    simp_all [run, step, interruptStep, panicStep, MainLoc.closedSig]

/-- An interrupt after `main` has left line 130 and before `close(sig)` is dropped. -/
theorem interrupt_dropped (p : Proc) (hx : p.exited = false)
    (hm : p.mainLoc = MainLoc.received) : run [Event.interrupt] p = p := by
  obtain ⟨h, loc, mainLoc, exited, errs, backlog, fwds, trace⟩ := p
  simp only at hx hm
  subst hx hm
  simp [run, step, interruptStep]

theorem closedBy_initial (h : Handles) (m : MainLoc) :
    closedBy h m <+: [Res.conn h.sshFwdConn, Res.sshConn h.sshConn] := by
  cases m
  · exact ⟨_, rfl⟩
  · exact ⟨_, rfl⟩
  · exact ⟨_, rfl⟩
  · exact ⟨[Res.sshConn h.sshConn], rfl⟩
  · exact List.prefix_refl _

theorem closedBy_no_listener (h : Handles) (m : MainLoc) (l : Nat) :
    Res.listener l ∉ closedBy h m := by
  cases m <;> simp [closedBy]

theorem main_extend (cfg : Config) (env : Env) (sched more : List Event) (h : Handles)
    (hs : (startup cfg env).2 = some h) (t : List Effect)
    (ht : (run more (run sched (Proc.init h))).trace = (run sched (Proc.init h)).trace ++ t) :
    main cfg env (sched ++ more) = main cfg env sched ++ t := by
  rw [main_of_startup_some cfg env _ h hs, main_of_startup_some cfg env _ h hs, run_append, ht,
    List.append_assoc]

/-- C7, as the code has it.  In a run that got through startup: (1) the listener is never
closed; (2) what has been closed is always an initial part of: the logical stream, then the
tunnel session; (3) the process ends through the end of `main` only after both have been
closed; (4) while `main` is parked in line 130 nothing has been closed.  From any point at
which the process has not ended: (5) an interrupt arriving while `main` is parked is
received by `main`, and four moves of `main` then perform `close(sig)`, the close of the
stream, the close of the session and the exit; (6) an error at the head of `errCh` while the
loop is at its `select` and `main` is parked is received and logged by the loop, passed on
to `sig` and received by `main`, and four moves of `main` then perform the same teardown;
(7) an error returned by `listener.Accept()` ends the process through `log.Fatalln` and
closes nothing; (8) once `sig` is closed, the send of line 117 or 121 and a further interrupt
each end the process by a panic, with whatever `main` has not yet closed left unclosed. -/
theorem C7_teardown (cfg : Config) (env : Env) (sched : List Event) (h : Handles)
    (e : String) (rest : List String) (queued : List (Except String Conn)) (b₁ b₂ : Bool)
    (hs : (startup cfg env).2 = some h) :
    (∀ l, Res.listener l ∉ closes (main cfg env sched)) ∧
    closes (main cfg env sched) <+: [Res.conn h.sshFwdConn, Res.sshConn h.sshConn] ∧
    (∀ c, Effect.exit c ∈ main cfg env sched →
      c = 0 ∧ closes (main cfg env sched) = [Res.conn h.sshFwdConn, Res.sshConn h.sshConn]) ∧
    ((run sched (Proc.init h)).mainLoc = MainLoc.parked → closes (main cfg env sched) = []) ∧
    ((run sched (Proc.init h)).exited = false →
      (run sched (Proc.init h)).mainLoc = MainLoc.parked →
      main cfg env (sched ++ [Event.interrupt, Event.mainStep, Event.mainStep,
          Event.mainStep, Event.mainStep]) =
        main cfg env sched ++ Effect.mainRecvSig :: teardown h) ∧
    ((run sched (Proc.init h)).exited = false →
      (run sched (Proc.init h)).mainLoc = MainLoc.parked →
      (run sched (Proc.init h)).loc = Loc.atSelect →
      (run sched (Proc.init h)).errs = e :: rest →
      main cfg env (sched ++ [Event.loopStep b₁, Event.loopStep b₂, Event.mainStep,
          Event.mainStep, Event.mainStep, Event.mainStep]) =
        main cfg env sched ++
          ([Effect.recvErr e, Effect.log e, Effect.sendSig, Effect.mainRecvSig] ++
            teardown h)) ∧
    ((run sched (Proc.init h)).exited = false →
      (run sched (Proc.init h)).loc = Loc.inAccept →
      (run sched (Proc.init h)).backlog = .error e :: queued →
      main cfg env (sched ++ [Event.loopStep b₁]) = main cfg env sched ++ [Effect.fatal e] ∧
      closes (main cfg env (sched ++ [Event.loopStep b₁])) = closes (main cfg env sched)) ∧
    ((run sched (Proc.init h)).exited = false →
      (run sched (Proc.init h)).mainLoc.closedSig = true →
      main cfg env (sched ++ [Event.interrupt]) =
        main cfg env sched ++ [Effect.panic "send on closed channel"] ∧
      ((run sched (Proc.init h)).loc = Loc.atSend →
        main cfg env (sched ++ [Event.loopStep b₁]) =
          main cfg env sched ++ [Effect.panic "send on closed channel"])) := by
  have hcl := main_closes cfg env sched h hs
  have hh := run_h sched (Proc.init h)
  refine ⟨?_, ?_, ?_, ?_, ?_, ?_, ?_, ?_⟩
  · intro l
    rw [hcl]
    exact closedBy_no_listener h _ l
  · rw [hcl]
    exact closedBy_initial h _
  · intro c hc
    rw [main_of_startup_some cfg env sched h hs, List.mem_append] at hc
    rcases hc with hc | hc
    · exact absurd hc (startup_no_exit cfg env c)
    · obtain ⟨c0, hm⟩ := (run_init_inv sched h).exit0 c hc
      exact ⟨c0, by rw [hcl, hm]; rfl⟩
  · intro hm
    rw [hcl, hm]
    rfl
  · intro hx hm
    have := (shutdown_by_interrupt _ hx hm).1
    rw [hh] at this
    exact main_extend cfg env sched _ h hs _ this
  · intro hx hm hl he
    have := (shutdown_by_error _ e rest b₁ b₂ hx hm hl he).1
    rw [hh, List.append_assoc] at this
    exact main_extend cfg env sched _ h hs _ this
  · intro hx hl hb
    have := (shutdown_by_accept_error _ e queued b₁ hx hl hb).1
    have hm := main_extend cfg env sched _ h hs _ this
    refine ⟨hm, ?_⟩
    rw [hm, closes_append]
    simp [closes]
  · intro hx hc
    refine ⟨main_extend cfg env sched _ h hs _ (interrupt_after_close _ hx hc).1, ?_⟩
    intro hl
    exact main_extend cfg env sched _ h hs _ (send_after_close _ b₁ hx hl hc).1

theorem C7_teardown_witness :
    (startup cfgPwd okEnv).2 = some okHandles ∧
    main cfgPwd okEnv ([Event.arrival (.ok (client 1)), Event.loopStep false,
        Event.loopStep false, Event.copyReturns 0 Dir.remoteToLocal (some "reset")] ++
        [Event.loopStep false, Event.loopStep false, Event.mainStep, Event.mainStep,
         Event.mainStep, Event.mainStep]) =
      main cfgPwd okEnv [Event.arrival (.ok (client 1)), Event.loopStep false,
        Event.loopStep false, Event.copyReturns 0 Dir.remoteToLocal (some "reset")] ++
        ([Effect.recvErr "io.Copy failed (remote -> local): reset\n",
          Effect.log "io.Copy failed (remote -> local): reset\n", Effect.sendSig,
          Effect.mainRecvSig] ++ teardown okHandles) :=
  ⟨by decide,
   (C7_teardown cfgPwd okEnv [Event.arrival (.ok (client 1)), Event.loopStep false,
      Event.loopStep false, Event.copyReturns 0 Dir.remoteToLocal (some "reset")] okHandles
      "io.Copy failed (remote -> local): reset\n" [] [] false false (by decide)).2.2.2.2.2.1
      (by decide) (by decide) (by decide) (by decide)⟩

/-- C7, counterexample.  First run: startup succeeds and `listener.Accept` then fails; the
process ends through `checkErr` with the fatal line as its last effect, and neither the
listener nor the tunnel session has been closed.  Second run: an interrupt is received by
`main`, which runs to the end: the stream and the session are closed, the listener is not.
Third run: client 1 is accepted, an interrupt is received by `main`, the copy from client 1
fails, the loop receives the error and blocks in line 121, `main` closes `sig`, and the
blocked send panics: the process ends with nothing closed. -/
theorem C7_teardown_skips_listener_or_is_cut_short :
    (startup cfgPwd okEnv).2 = some okHandles ∧
    (main cfgPwd okEnv [Event.arrival (.error "accept: too many open files"),
      Event.loopStep false, Event.loopStep false]).getLast? =
        some (Effect.fatal "accept: too many open files") ∧
    closes (main cfgPwd okEnv [Event.arrival (.error "accept: too many open files"),
      Event.loopStep false, Event.loopStep false]) = [] ∧
    (main cfgPwd okEnv [Event.interrupt, Event.mainStep, Event.mainStep, Event.mainStep,
      Event.mainStep]).getLast? = some (Effect.exit 0) ∧
    closes (main cfgPwd okEnv [Event.interrupt, Event.mainStep, Event.mainStep,
      Event.mainStep, Event.mainStep]) =
      [Res.conn okHandles.sshFwdConn, Res.sshConn okHandles.sshConn] ∧
    (main cfgPwd okEnv [Event.arrival (.ok (client 1)), Event.loopStep false,
      Event.loopStep false, Event.interrupt,
      Event.copyReturns 0 Dir.localToRemote (some "broken pipe"), Event.loopStep false,
      Event.loopStep false, Event.mainStep, Event.loopStep false, Event.mainStep,
      Event.mainStep, Event.mainStep]).getLast? =
        some (Effect.panic "send on closed channel") ∧
    closes (main cfgPwd okEnv [Event.arrival (.ok (client 1)), Event.loopStep false,
      Event.loopStep false, Event.interrupt,
      Event.copyReturns 0 Dir.localToRemote (some "broken pipe"), Event.loopStep false,
      Event.loopStep false, Event.mainStep, Event.loopStep false, Event.mainStep,
      Event.mainStep, Event.mainStep]) = [] := by
  decide

/-! ## Shutdown under several triggers (lines 109-132) -/

/-- Once the accept loop has left its `select` for good it receives nothing more: the
forwarders blocked on `errCh` stay blocked and later ones queue up behind them. -/
theorem trans_left (p q : Proc) (ht : Trans p q) (hl : LeftSelect p) :
    LeftSelect q ∧ received q.trace = received p.trace ∧ p.errs <+: q.errs := by
  obtain ⟨k, hg, _, htr, hloc, _, _, he⟩ := ht
  unfold LeftSelect at hl ⊢
  rw [htr, received_append, hloc]
  cases k
  case tookDefault => rcases hl with h | h <;> (rw [hg.1] at h; cases h)
  case tookSig => rcases hl with h | h <;> (rw [hg.1] at h; cases h)
  case tookErr e =>
    have g : p.loc = Loc.atSelect := hg
    rcases hl with h | h <;> (rw [g] at h; cases h)
  case acceptedConn c =>
    have g : p.loc = Loc.inAccept := hg
    rcases hl with h | h <;> (rw [g] at h; cases h)
  case acceptFailed e =>
    have g : p.loc = Loc.inAccept := hg
    rcases hl with h | h <;> (rw [g] at h; cases h)
  case quiet =>
    exact ⟨hl, List.append_nil _, he⟩
  case handedOver =>
    have he' : q.errs = p.errs := he
    exact ⟨Or.inr rfl, List.append_nil _, by rw [he']⟩
  all_goals
    have he' : q.errs = p.errs := he
    exact ⟨hl, List.append_nil _, by rw [he']⟩

theorem run_left (sched : List Event) (p : Proc) (hl : LeftSelect p) :
    LeftSelect (run sched p) ∧ received (run sched p).trace = received p.trace ∧
    p.errs <+: (run sched p).errs := by
  induction sched generalizing p with
  | nil => exact ⟨hl, rfl, List.prefix_refl _⟩
  | cons ev s ih =>
    rcases hx : p.exited with _ | _
    · obtain ⟨h1, h2, h3⟩ := trans_left p _ (step_trans ev p hx) hl
      obtain ⟨k1, k2, k3⟩ := ih (step ev p) h1
      exact ⟨k1, k2.trans h2, h3.trans k3⟩
    · rw [run_exited _ p hx]
      exact ⟨hl, rfl, List.prefix_refl _⟩

theorem step_blocked (ev : Event) (p : Proc) (hb : BlockedInAccept p)
    (hq : ev.quiet = true) :
    BlockedInAccept (step ev p) ∧ (step ev p).trace = p.trace ∧
    p.errs <+: (step ev p).errs := by
  obtain ⟨hx, hl, hbk, hm⟩ := hb
  cases ev with
  | interrupt => simp [Event.quiet] at hq
  | arrival r => simp [Event.quiet] at hq
  | copyReturns i d err =>
    have e1 : step (Event.copyReturns i d err) p = copyReturnsStep i d err p := by
      unfold step
      rw [if_neg (by simp [hx])]
    rw [e1]
    unfold copyReturnsStep
    rcases p.fwds[i]? with _ | f
    · exact ⟨⟨hx, hl, hbk, hm⟩, rfl, List.prefix_refl _⟩
    · cases d with
      | localToRemote =>
        dsimp only
        split_ifs
        · exact ⟨⟨hx, hl, hbk, hm⟩, rfl, List.prefix_append _ _⟩
        · exact ⟨⟨hx, hl, hbk, hm⟩, rfl, List.prefix_refl _⟩
      | remoteToLocal =>
        dsimp only
        split_ifs
        · exact ⟨⟨hx, hl, hbk, hm⟩, rfl, List.prefix_append _ _⟩
        · exact ⟨⟨hx, hl, hbk, hm⟩, rfl, List.prefix_refl _⟩
  | loopStep b =>
    have e1 : step (Event.loopStep b) p = p := by
      unfold step
      rw [if_neg (by simp [hx])]
      simp only [hl, acceptStep, hbk]
    rw [e1]
    exact ⟨⟨hx, hl, hbk, hm⟩, rfl, List.prefix_refl _⟩
  | mainStep =>
    have e1 : step Event.mainStep p = p := by
      unfold step
      rw [if_neg (by simp [hx])]
      simp only [mainStep, hm]
    rw [e1]
    exact ⟨⟨hx, hl, hbk, hm⟩, rfl, List.prefix_refl _⟩

theorem run_blocked (sched : List Event) (p : Proc) (hb : BlockedInAccept p)
    (hq : ∀ ev ∈ sched, ev.quiet = true) :
    (run sched p).exited = false ∧ (run sched p).trace = p.trace ∧
    p.errs <+: (run sched p).errs := by
  induction sched generalizing p with
  | nil => exact ⟨hb.1, rfl, List.prefix_refl _⟩
  | cons ev s ih =>
    obtain ⟨h1, h2, h3⟩ := step_blocked ev p hb (hq ev (List.mem_cons_self _ _))
    obtain ⟨k1, k2, k3⟩ := ih (step ev p) h1 (fun e he => hq e (List.mem_cons_of_mem _ he))
    exact ⟨k1, k2.trans h2, h3.trans k3⟩

/-- C8, as the code has it.  For every schedule of interrupts and forwarder errors, in any
number and order, after a successful startup: (1) the listener is never closed; (2) what has
been closed is an initial part of: the logical stream, then the tunnel session, so each is
closed at most once; (3) the process ends at most once; (4) `main` receives from `sig` at
most once; (5) the accept loop consumes at most one trigger, and has left its `select` for
good once it has consumed one; (6) the process ends through the end of `main` only after
both closes; (7) once the loop has left its `select` no further trigger is consumed: the
forwarders blocked on `errCh` stay blocked and later ones queue up behind them; (8) while
the loop stands in `listener.Accept()` with nothing queued and `main` is parked, copies
returning with errors and moves of the goroutines change nothing: the errors stay
unreceived and no teardown runs until a connection or an interrupt arrives; (9) after
`main` has left line 130 and before it has closed `sig`, a further interrupt is dropped and
the send of line 117 or 121 blocks; (10) after `main` has closed `sig`, a further interrupt
and the send of line 117 or 121 each end the process by a panic. -/
theorem C8_shutdown_at_most_once (h : Handles) (sched later : List Event) (b : Bool) :
    (∀ l, Res.listener l ∉ closes (run sched (Proc.init h)).trace) ∧
    closes (run sched (Proc.init h)).trace <+:
      [Res.conn h.sshFwdConn, Res.sshConn h.sshConn] ∧
    (ends (run sched (Proc.init h)).trace).length ≤ 1 ∧
    (mainReceives (run sched (Proc.init h)).trace).length ≤ 1 ∧
    ((received (run sched (Proc.init h)).trace).length ≤ 1 ∧
      (received (run sched (Proc.init h)).trace ≠ [] →
        LeftSelect (run sched (Proc.init h)))) ∧
    (∀ c, Effect.exit c ∈ (run sched (Proc.init h)).trace →
      c = 0 ∧ closes (run sched (Proc.init h)).trace =
        [Res.conn h.sshFwdConn, Res.sshConn h.sshConn]) ∧
    (LeftSelect (run sched (Proc.init h)) →
      received (run (sched ++ later) (Proc.init h)).trace =
        received (run sched (Proc.init h)).trace ∧
      (run sched (Proc.init h)).errs <+: (run (sched ++ later) (Proc.init h)).errs) ∧
    (BlockedInAccept (run sched (Proc.init h)) → (∀ ev ∈ later, ev.quiet = true) →
      (run (sched ++ later) (Proc.init h)).exited = false ∧
      (run (sched ++ later) (Proc.init h)).trace = (run sched (Proc.init h)).trace ∧
      (run sched (Proc.init h)).errs <+: (run (sched ++ later) (Proc.init h)).errs) ∧
    ((run sched (Proc.init h)).exited = false →
      (run sched (Proc.init h)).mainLoc = MainLoc.received →
      run (sched ++ [Event.interrupt]) (Proc.init h) = run sched (Proc.init h) ∧
      ((run sched (Proc.init h)).loc = Loc.atSend →
        run (sched ++ [Event.loopStep b]) (Proc.init h) = run sched (Proc.init h))) ∧
    ((run sched (Proc.init h)).exited = false →
      (run sched (Proc.init h)).mainLoc.closedSig = true →
      (run (sched ++ [Event.interrupt]) (Proc.init h)).trace =
        (run sched (Proc.init h)).trace ++ [Effect.panic "send on closed channel"] ∧
      ((run sched (Proc.init h)).loc = Loc.atSend →
        (run (sched ++ [Event.loopStep b]) (Proc.init h)).trace =
          (run sched (Proc.init h)).trace ++ [Effect.panic "send on closed channel"])) := by
  have inv := run_init_inv sched h
  have hh := run_h sched (Proc.init h)
  have hcl : closes (run sched (Proc.init h)).trace =
      closedBy h (run sched (Proc.init h)).mainLoc := by
    rw [inv.closed, hh]
    rfl
  refine ⟨?_, ?_, ?_, ?_, ?_, ?_, ?_, ?_, ?_, ?_⟩
  · intro l
    rw [hcl]
    exact closedBy_no_listener h _ l
  · rw [hcl]
    exact closedBy_initial h _
  · rw [inv.ended]
    split_ifs <;> simp
  · rw [inv.mainRecv]
    split_ifs <;> simp
  · have hr := inv.loopRecv
    constructor
    · rw [hr]
      split_ifs <;> simp
    · intro hne
      unfold LeftSelect
      rcases hloc : (run sched (Proc.init h)).loc with _ | _ | _ | _
      · rw [hloc] at hr
        exact absurd (List.length_eq_zero.mp (by simpa using hr)) hne
      · rw [hloc] at hr
        exact absurd (List.length_eq_zero.mp (by simpa using hr)) hne
      · exact Or.inl rfl
      · exact Or.inr rfl
  · intro c hc
    obtain ⟨c0, hm⟩ := inv.exit0 c hc
    exact ⟨c0, by rw [hcl, hm]; rfl⟩
  · intro hl
    rw [run_append]
    exact (run_left later _ hl).2
  · intro hb hq
    rw [run_append]
    exact run_blocked later _ hb hq
  · intro hx hm
    rw [run_append, run_append]
    exact ⟨interrupt_dropped _ hx hm, fun hl => send_blocked _ b hx hl hm⟩
  · intro hx hc
    rw [run_append, run_append]
    exact ⟨(interrupt_after_close _ hx hc).1, fun hl => (send_after_close _ b hx hl hc).1⟩

theorem C8_shutdown_at_most_once_witness :
    BlockedInAccept (run [Event.arrival (.ok (client 1)), Event.loopStep false,
      Event.loopStep false, Event.loopStep false] (Proc.init okHandles)) ∧
    (run ([Event.arrival (.ok (client 1)), Event.loopStep false, Event.loopStep false,
        Event.loopStep false] ++
        [Event.copyReturns 0 Dir.localToRemote (some "broken pipe"),
         Event.copyReturns 0 Dir.remoteToLocal (some "reset"),
         Event.loopStep false, Event.mainStep])
      (Proc.init okHandles)).exited = false ∧
    (ends (run [Event.interrupt, Event.mainStep, Event.interrupt, Event.mainStep,
      Event.loopStep true] (Proc.init okHandles)).trace).length ≤ 1 :=
  ⟨⟨rfl, rfl, rfl, rfl⟩,
   ((C8_shutdown_at_most_once okHandles
      [Event.arrival (.ok (client 1)), Event.loopStep false, Event.loopStep false,
       Event.loopStep false]
      [Event.copyReturns 0 Dir.localToRemote (some "broken pipe"),
       Event.copyReturns 0 Dir.remoteToLocal (some "reset"),
       Event.loopStep false, Event.mainStep] false).2.2.2.2.2.2.2.1
      ⟨rfl, rfl, rfl, rfl⟩ (by decide)).1,
   (C8_shutdown_at_most_once okHandles [Event.interrupt, Event.mainStep, Event.interrupt,
      Event.mainStep, Event.loopStep true] [] false).2.2.1⟩

/-- C8, counterexample.  First run, one interrupt: `main` receives it and runs to the end;
the stream and the session are closed and the process exits, but the listener is not among
the resources closed.  Second run, an interrupt and a forwarder error: `main` receives the
interrupt, the loop receives the error and blocks in line 121, `main` closes `sig`, and the
blocked send panics; the process ends with nothing closed and without the exit of `main`.
Third run, one forwarder error that arrives while the accept loop stands in
`listener.Accept()` and no further connection comes: the goroutines can move as often as
they like, the error stays unreceived, its forwarder stays blocked, and no teardown runs. -/
theorem C8_teardown_without_listener_or_not_at_all :
    closes (main cfgPwd okEnv [Event.interrupt, Event.mainStep, Event.mainStep,
      Event.mainStep, Event.mainStep]) =
      [Res.conn okHandles.sshFwdConn, Res.sshConn okHandles.sshConn] ∧
    (main cfgPwd okEnv [Event.interrupt, Event.mainStep, Event.mainStep, Event.mainStep,
      Event.mainStep]).getLast? = some (Effect.exit 0) ∧
    Res.listener okHandles.listener ∉
      closes (main cfgPwd okEnv [Event.interrupt, Event.mainStep, Event.mainStep,
        Event.mainStep, Event.mainStep]) ∧
    (run [Event.arrival (.ok (client 1)), Event.loopStep false, Event.loopStep false,
      Event.interrupt, Event.copyReturns 0 Dir.localToRemote (some "broken pipe"),
      Event.loopStep false, Event.loopStep false, Event.mainStep, Event.loopStep false,
      Event.mainStep, Event.mainStep, Event.mainStep] (Proc.init okHandles)).trace =
      [Effect.accept (client 1), Effect.goForward (client 1) okHandles.sshFwdConn,
       Effect.mainRecvSig,
       Effect.recvErr "io.Copy failed (local -> remote): broken pipe\n",
       Effect.log "io.Copy failed (local -> remote): broken pipe\n",
       Effect.closeSig, Effect.panic "send on closed channel"] ∧
    closes (main cfgPwd okEnv [Event.arrival (.ok (client 1)), Event.loopStep false,
      Event.loopStep false, Event.loopStep false,
      Event.copyReturns 0 Dir.localToRemote (some "broken pipe"),
      Event.loopStep false, Event.mainStep, Event.loopStep false, Event.mainStep]) = [] ∧
    ends (main cfgPwd okEnv [Event.arrival (.ok (client 1)), Event.loopStep false,
      Event.loopStep false, Event.loopStep false,
      Event.copyReturns 0 Dir.localToRemote (some "broken pipe"),
      Event.loopStep false, Event.mainStep, Event.loopStep false, Event.mainStep]) = [] ∧
    (run [Event.arrival (.ok (client 1)), Event.loopStep false,
      Event.loopStep false, Event.loopStep false,
      Event.copyReturns 0 Dir.localToRemote (some "broken pipe"),
      Event.loopStep false, Event.mainStep, Event.loopStep false, Event.mainStep]
      (Proc.init okHandles)).errs = ["io.Copy failed (local -> remote): broken pipe\n"] := by
  decide

end SshTunnel
